import Mathlib

/-!
Verification of the document-reconstruction engine of `src/extract-pst.c`
against its natural-language specification.

Text is modelled as `List Char` (one `Char` per byte of the C string; the
terminating NUL is represented by the end of the list).  Each definition is a
shallow embedding of the C function of the same name; output written with
`fprintf`/`pst_fwrite` is modelled as the list of characters (or the list of
lines) produced.
-/

set_option maxRecDepth 10000

/-- Byte strings of the C program, one `Char` per byte. -/
abbrev Str := List Char

/-- ASCII `tolower`, as used by `strncasecmp` and by `my_stristr`:
uppercase letters map to lowercase, every other byte is unchanged. -/
def asciiLower (c : Char) : Char :=
  match c with
  | 'A' => 'a' | 'B' => 'b' | 'C' => 'c' | 'D' => 'd' | 'E' => 'e' | 'F' => 'f'
  | 'G' => 'g' | 'H' => 'h' | 'I' => 'i' | 'J' => 'j' | 'K' => 'k' | 'L' => 'l'
  | 'M' => 'm' | 'N' => 'n' | 'O' => 'o' | 'P' => 'p' | 'Q' => 'q' | 'R' => 'r'
  | 'S' => 's' | 'T' => 't' | 'U' => 'u' | 'V' => 'v' | 'W' => 'w' | 'X' => 'x'
  | 'Y' => 'y' | 'Z' => 'z'
  | c => c

/-- Case-insensitive byte equality (`tolower(a) == tolower(b)`). -/
def ciEq (a b : Char) : Bool := asciiLower a == asciiLower b

/-- `strncasecmp(s, f, |f|) == 0`: `f` is a case-insensitive prefix of `s`
(comparison stops short, i.e. fails, at the end of `s`, which models the
terminating NUL of the C string mismatching a remaining pattern byte). -/
def ciStarts : Str → Str → Bool
  | [], _ => true
  | _ :: _, [] => false
  | a :: f, b :: s => ciEq a b && ciStarts f s

theorem ciStarts_nil (s : Str) : ciStarts [] s = true := rfl

theorem ciStarts_cons_cons (a b : Char) (f s : Str) :
    ciStarts (a :: f) (b :: s) = (ciEq a b && ciStarts f s) := rfl

theorem asciiLower_eq_nl {c : Char} (h : asciiLower c = '\n') : c = '\n' := by
  unfold asciiLower at h
  split at h <;> first | (exact absurd h (by decide)) | exact h

theorem ciEq_nl_right {a : Char} (h : a ≠ '\n') : ciEq a '\n' = false := by
  unfold ciEq
  by_contra hb
  have : asciiLower a = asciiLower '\n' := by
    cases he : (asciiLower a == asciiLower '\n') with
    | true => exact beq_iff_eq.mp he
    | false => exact absurd he hb
  exact h (asciiLower_eq_nl this)

/- ------------------------------------------------------------------ -/
/- C3: `header_match` and `valid_headers` (extract-pst.c lines 539-576) -/
/- ------------------------------------------------------------------ -/

/-- Embedding of `header_match` (lines 539-548): the tag `field` matches the
start of `header` case-insensitively, or, when `field` ends in a space, the
tag without that space matches and is immediately followed by CR LF TAB. -/
def header_match (header field : Str) : Bool :=
  ciStarts field header ||
  (field.getLast? == some ' ' && ciStarts field.dropLast header &&
   ciStarts [ '\r' , '\n' , '\t' ] (header.drop (field.length - 1)))

/-- Embedding of `valid_headers` (lines 550-576): a NULL blob is invalid;
otherwise the blob is valid iff its leading text matches one of the twelve
enumerated tags. -/
def valid_headers (header : Option Str) : Bool :=
  match header with
  | none => false
  | some h =>
    header_match h (("Content-Type: ").toList) ||
    header_match h (("Date: ").toList) ||
    header_match h (("From: ").toList) ||
    header_match h (("MIME-Version: ").toList) ||
    header_match h (("Microsoft Mail Internet Headers").toList) ||
    header_match h (("Received: ").toList) ||
    header_match h (("Return-Path: ").toList) ||
    header_match h (("Subject: ").toList) ||
    header_match h (("To: ").toList) ||
    header_match h (("X-ASG-Debug-ID: ").toList) ||
    header_match h (("X-Barracuda-URL: ").toList) ||
    header_match h (("X-x: ").toList)

/-- Specification-side reading of one tag match, following the spec's words:
the blob's leading text case-insensitively matches the tag, where a tag whose
pattern ends in a space also matches with that trailing space replaced by the
three-character sequence CR, LF, TAB. -/
def specTagMatch (h tag : Str) : Prop :=
  ciStarts tag h = true ∨
  (tag.getLast? = some ' ' ∧
   ciStarts (tag.dropLast ++ [ '\r' , '\n' , '\t' ]) h = true)

/-- The twelve canonical tags enumerated by `valid_headers`. -/
def canonicalTags : List Str :=
  [ ("Content-Type: ").toList, ("Date: ").toList, ("From: ").toList,
    ("MIME-Version: ").toList, ("Microsoft Mail Internet Headers").toList,
    ("Received: ").toList, ("Return-Path: ").toList, ("Subject: ").toList,
    ("To: ").toList, ("X-ASG-Debug-ID: ").toList,
    ("X-Barracuda-URL: ").toList, ("X-x: ").toList ]

theorem ciStarts_append (a b s : Str) :
    ciStarts (a ++ b) s =
      (ciStarts a s && ciStarts b (s.drop a.length)) := by
  induction a generalizing s with
  | nil => simp [ciStarts]
  | cons x a ih =>
    cases s with
    | nil => simp [ciStarts]
    | cons y s =>
      simp only [List.cons_append, ciStarts_cons_cons, List.length_cons,
        List.drop_succ_cons, ih, Bool.and_assoc]

theorem header_match_iff (h tag : Str) :
    header_match h tag = true ↔ specTagMatch h tag := by
  unfold header_match specTagMatch
  constructor
  · intro hm
    rcases (Bool.or_eq_true _ _).mp hm with hp | hq
    · exact Or.inl hp
    · rcases (Bool.and_eq_true _ _).mp hq with ⟨hq1, hcr⟩
      rcases (Bool.and_eq_true _ _).mp hq1 with ⟨hlast, hdl⟩
      refine Or.inr ⟨beq_iff_eq.mp hlast, ?_⟩
      rw [ciStarts_append, List.length_dropLast, hdl, Bool.true_and]
      exact hcr
  · rintro (hp | ⟨hlast, hc⟩)
    · exact (Bool.or_eq_true _ _).mpr (Or.inl hp)
    · rw [ciStarts_append, List.length_dropLast, Bool.and_eq_true] at hc
      refine (Bool.or_eq_true _ _).mpr (Or.inr ?_)
      rw [Bool.and_eq_true, Bool.and_eq_true]
      exact ⟨⟨beq_iff_eq.mpr hlast, hc.1⟩, hc.2⟩

theorem valid_headers_any (h : Str) :
    valid_headers (some h) = true ↔
      ∃ tag ∈ canonicalTags, header_match h tag = true := by
  simp only [valid_headers, Bool.or_eq_true, canonicalTags, List.mem_cons,
    List.not_mem_nil, or_false, exists_eq_or_imp, exists_eq_left]
  tauto

/-- C3: `valid_headers(blob)` returns true iff the blob is non-null and its
leading text case-insensitively matches one of the twelve enumerated
canonical tags, where a tag whose pattern ends in a space also matches with
that trailing space replaced by CR, LF, TAB; for every other blob it returns
false. -/
theorem c3_valid_headers_iff (header : Option Str) :
    valid_headers header = true ↔
      ∃ h, header = some h ∧ ∃ tag ∈ canonicalTags, specTagMatch h tag := by
  cases header with
  | none => simp [valid_headers]
  | some h =>
    rw [valid_headers_any]
    constructor
    · rintro ⟨tag, ht, hm⟩
      exact ⟨h, rfl, tag, ht, (header_match_iff h tag).mp hm⟩
    · rintro ⟨h2, heq, tag, ht, hm⟩
      injection heq with heq
      subst heq
      exact ⟨tag, ht, (header_match_iff h tag).mpr hm⟩

/- ------------------------------------------------------------------ -/
/- C10: `write_email_body` (extract-pst.c lines 298-313)               -/
/- ------------------------------------------------------------------ -/

/-- Case-sensitive prefix test (`strncmp(s, f, |f|) == 0`; running off the
end of `s` models the terminating NUL mismatching a pattern byte). -/
def litStarts : Str → Str → Bool
  | [], _ => true
  | _ :: _, [] => false
  | a :: f, b :: s => (a == b) && litStarts f s

/-- Index of the first newline in a string (`strchr(s, '\n')`). -/
def findNL : Str → Option Nat
  | [] => none
  | c :: rest => if c = '\n' then some 0 else (findNL rest).map (· + 1)

theorem findNL_some_lt : ∀ {s : Str} {i : Nat}, findNL s = some i → i < s.length := by
  intro s
  induction s with
  | nil => intro i h; simp [findNL] at h
  | cons c rest ih =>
    intro i h
    rw [findNL] at h
    by_cases hc : c = '\n'
    · rw [if_pos hc] at h
      injection h with h
      subst h
      simp
    · rw [if_neg hc] at h
      cases hr : findNL rest with
      | none => rw [hr] at h; simp at h
      | some j =>
        rw [hr] at h
        simp only [Option.map_some'] at h
        injection h with h
        subst h
        have := ih hr
        simp only [List.length_cons]
        omega

theorem findNL_none_no_nl : ∀ {s : Str}, findNL s = none → '\n' ∉ s := by
  intro s
  induction s with
  | nil => intro _; simp
  | cons c rest ih =>
    intro h
    rw [findNL] at h
    by_cases hc : c = '\n'
    · rw [if_pos hc] at h; simp at h
    · rw [if_neg hc] at h
      cases hr : findNL rest with
      | some j => rw [hr] at h; simp at h
      | none =>
        simp only [List.mem_cons, not_or]
        exact ⟨fun he => hc he.symm, ih hr⟩

theorem findNL_split : ∀ {s : Str} {i : Nat}, findNL s = some i →
    '\n' ∉ s.take i ∧ s.drop i = '\n' :: s.drop (i + 1) := by
  intro s
  induction s with
  | nil => intro i h; simp [findNL] at h
  | cons c rest ih =>
    intro i h
    rw [findNL] at h
    by_cases hc : c = '\n'
    · rw [if_pos hc] at h
      injection h with h
      subst h
      subst hc
      simp
    · rw [if_neg hc] at h
      cases hr : findNL rest with
      | none => rw [hr] at h; simp at h
      | some j =>
        rw [hr] at h
        simp only [Option.map_some'] at h
        injection h with h
        subst h
        obtain ⟨h1, h2⟩ := ih hr
        refine ⟨?_, by simpa using h2⟩
        simp only [List.take_succ_cons, List.mem_cons, not_or]
        exact ⟨fun he => hc he.symm, h1⟩

/-- The `while (*p == '>') p++` skip at the top of each loop iteration of
`write_email_body`. -/
def skipGt : Str → Str
  | [] => []
  | c :: rest => if c = '>' then skipGt rest else c :: rest

/-- The mbox test made at the top of each loop iteration of
`write_email_body`: skip every leading `>` of the current position, then
compare the next five bytes with `From `. -/
def fromCheck (s : Str) : Bool :=
  litStarts (("From ").toList) (skipGt s)

/-- Loop body of `write_email_body` (lines 301-310), with a fuel parameter
bounding the number of loop iterations; every iteration that recurses
consumes at least the current line's newline, so `body.length` iterations
always suffice.  Per iteration the current position is tested with
`fromCheck` and a `>` is written when it matches; then the text through the
next newline is copied and the loop repeats on the remainder; the final
newline-free tail is copied after the loop (its `fromCheck` having been
performed by the last iteration, line 304 running before line 305). -/
def write_email_body_go : Nat → Str → Str
  | 0, body => body
  | fuel + 1, body =>
    (if fromCheck body then [ '>' ] else []) ++
    match findNL body with
    | some i => body.take (i + 1) ++ write_email_body_go fuel (body.drop (i + 1))
    | none => body

/-- Embedding of `write_email_body` (lines 298-313). -/
def write_email_body (body : Str) : Str :=
  write_email_body_go (body.length + 1) body

/-- One line of the specification-side description: a line is emitted with a
single `>` prepended exactly when, after skipping any leading `>` characters,
it begins with `From `. -/
def quoteLine (l : Str) : Str :=
  if fromCheck l then '>' :: l else l

/-- Split a string at every newline; the final (possibly empty) unterminated
segment is kept. -/
def splitNL : Str → List Str
  | [] => [[]]
  | c :: rest =>
    if c = '\n' then [] :: splitNL rest
    else
      match splitNL rest with
      | [] => [[c]]
      | l :: ls => (c :: l) :: ls

/-- Rejoin lines with single newlines (inverse of `splitNL`). -/
def joinNL : List Str → Str
  | [] => []
  | [l] => l
  | l :: ls => l ++ '\n' :: joinNL ls

theorem splitNL_ne_nil (s : Str) : splitNL s ≠ [] := by
  cases s with
  | nil => simp [splitNL]
  | cons c rest =>
    simp only [splitNL]
    split
    · simp
    · split <;> simp

theorem joinNL_cons {x : Str} {ls : List Str} (h : ls ≠ []) :
    joinNL (x :: ls) = x ++ '\n' :: joinNL ls := by
  cases ls with
  | nil => exact absurd rfl h
  | cons y t => rfl

theorem splitNL_no_nl {s : Str} (h : '\n' ∉ s) : splitNL s = [s] := by
  induction s with
  | nil => rfl
  | cons c rest ih =>
    simp only [List.mem_cons, not_or] at h
    have hc : c ≠ '\n' := fun he => h.1 he.symm
    simp only [splitNL, hc, if_false]
    rw [ih h.2]

theorem splitNL_append_nl {l : Str} (rest : Str) (h : '\n' ∉ l) :
    splitNL (l ++ '\n' :: rest) = l :: splitNL rest := by
  induction l with
  | nil => simp [splitNL]
  | cons c t ih =>
    simp only [List.mem_cons, not_or] at h
    have hc : c ≠ '\n' := fun he => h.1 he.symm
    simp only [List.cons_append, splitNL, hc, if_false, List.append_eq]
    rw [ih h.2]

theorem litStarts_nl_boundary {f : Str} (hf : '\n' ∉ f) :
    ∀ (p r : Str), litStarts f (p ++ '\n' :: r) = litStarts f p := by
  induction f with
  | nil => intro p r; rfl
  | cons a f ih =>
    intro p r
    simp only [List.mem_cons, not_or] at hf
    cases p with
    | nil =>
      have ha : (a == '\n') = false := by
        cases hb : (a == '\n') with
        | true => exact absurd (beq_iff_eq.mp hb).symm hf.1
        | false => rfl
      simp [litStarts, ha]
    | cons b p =>
      simp only [List.cons_append, litStarts, List.append_eq]
      rw [ih hf.2]

theorem skipGt_append_nl (l rest : Str) :
    skipGt (l ++ '\n' :: rest) = skipGt l ++ '\n' :: rest := by
  induction l with
  | nil => simp [skipGt]
  | cons c t ih =>
    by_cases hc : c = '>'
    · simp only [List.cons_append, skipGt, hc, if_true]
      exact ih
    · simp [skipGt, hc]

theorem fromCheck_boundary {l : Str} (rest : Str) (h : '\n' ∉ l) :
    fromCheck (l ++ '\n' :: rest) = fromCheck l := by
  unfold fromCheck
  rw [skipGt_append_nl]
  exact litStarts_nl_boundary (by decide) _ _

theorem take_at_nl {s l r : Str} {i : Nat} (hlen : l.length = i)
    (hs : s = l ++ '\n' :: r) : s.take (i + 1) = l ++ [ '\n' ] := by
  subst hs
  rw [List.take_append_eq_append_take]
  rw [List.take_of_length_le (by omega)]
  rw [hlen]
  simp

theorem write_email_body_go_spec :
    ∀ (fuel : Nat) (body : Str), body.length < fuel →
      write_email_body_go fuel body = joinNL ((splitNL body).map quoteLine) := by
  intro fuel
  induction fuel with
  | zero => intro body hb; omega
  | succ n ih =>
    intro body hb
    cases hfind : findNL body with
    | none =>
      have hnl := findNL_none_no_nl hfind
      simp only [write_email_body_go, hfind]
      rw [splitNL_no_nl hnl]
      simp only [List.map_cons, List.map_nil]
      cases hq : fromCheck body <;> simp [joinNL, quoteLine, hq]
    | some i =>
      have hlt := findNL_some_lt hfind
      obtain ⟨hnotake, hdropeq⟩ := findNL_split hfind
      have hlen : (body.take i).length = i := by
        rw [List.length_take]
        omega
      have hbody : body = body.take i ++ '\n' :: body.drop (i + 1) := by
        conv_lhs => rw [← List.take_append_drop i body]
        rw [hdropeq]
      simp only [write_email_body_go, hfind]
      rw [take_at_nl hlen hbody]
      have hdlen : (body.drop (i + 1)).length < n := by
        rw [List.length_drop]
        omega
      rw [ih _ hdlen]
      conv_lhs => rw [show fromCheck body = fromCheck (body.take i) by
        conv_lhs => rw [hbody]
        exact fromCheck_boundary _ hnotake]
      conv_rhs => rw [hbody]
      rw [splitNL_append_nl _ hnotake]
      simp only [List.map_cons]
      rw [joinNL_cons (by simp [splitNL_ne_nil])]
      cases hq : fromCheck (body.take i) <;>
        simp [quoteLine, hq, List.append_assoc]

/-- C10: for every body string, `write_email_body` writes the body with a
single `>` prepended to each line (including the final unterminated one)
that, after skipping any leading `>` characters, begins with `From `, and
every other line unchanged; in particular a body containing such a line is
not emitted byte-for-byte verbatim even though it is not base64-encoded. -/
theorem c10_write_email_body_quotes :
    (∀ body : Str, write_email_body body =
        joinNL ((splitNL body).map quoteLine)) ∧
      write_email_body (("From a").toList) ≠ ("From a").toList := by
  constructor
  · intro body
    exact write_email_body_go_spec (body.length + 1) body (Nat.lt_succ_self _)
  · decide

/- ------------------------------------------------------------------ -/
/- C2: `removeCR`, `test_base64`, `write_body_part` (lines 316-328,    -/
/-     663-678, 715-742)                                               -/
/- ------------------------------------------------------------------ -/

/-- Embedding of `removeCR` (lines 316-328): copy every byte that is not a
carriage return. -/
def removeCR (s : Str) : Str := s.filter (· ≠ '\r')

/-- Embedding of `test_base64` (lines 663-678): scan the bytes and report
whether one is below 32 and neither tab (9) nor newline (10); the C loop
breaks at the first such byte. -/
def test_base64 : Str → Bool
  | [] => false
  | c :: rest =>
    if c.toNat < 32 ∧ c.toNat ≠ 9 ∧ c.toNat ≠ 10 then true else test_base64 rest

theorem test_base64_iff (s : Str) :
    test_base64 s = true ↔
      ∃ c ∈ s, c.toNat < 32 ∧ c.toNat ≠ 9 ∧ c.toNat ≠ 10 := by
  induction s with
  | nil => simp [test_base64]
  | cons c rest ih =>
    by_cases hc : c.toNat < 32 ∧ c.toNat ≠ 9 ∧ c.toNat ≠ 10
    · simp [test_base64, hc]
    · simp only [test_base64, hc, if_false, ih, List.mem_cons]
      constructor
      · rintro ⟨d, hd, hp⟩
        exact ⟨d, Or.inr hd, hp⟩
      · rintro ⟨d, hd | hd, hp⟩
        · subst hd; exact absurd hp hc
        · exact ⟨d, hd, hp⟩

/-- Modelled from the spec: the base64 alphabet of the external
`pst_base64_encode` collaborator (base64 encode/decode are out-of-scope
text-encoding collaborators per the external-interfaces section).  The
argument is reduced modulo 64; the encoder below only passes values
below 64. -/
def b64chars (n : Nat) : Char :=
  (("ABCDEFGHIJKLMNOPQRSTUVWXYZabcdefghijklmnopqrstuvwxyz0123456789+/").toList).getD
    (n % 64) 'A'

/-- Modelled from the spec: value of one base64 alphabet character, the
inverse of `b64chars`; non-alphabet characters map to 0. -/
def b64val (c : Char) : Nat :=
  if 'A' ≤ c ∧ c ≤ 'Z' then c.toNat - 65
  else if 'a' ≤ c ∧ c ≤ 'z' then c.toNat - 97 + 26
  else if '0' ≤ c ∧ c ≤ '9' then c.toNat - 48 + 52
  else if c = '+' then 62
  else if c = '/' then 63
  else 0

/-- Modelled from the spec: the external base64 encoder, applied to a byte
sequence; three input bytes map to four alphabet characters, with `=`
padding for a final group of one or two bytes. -/
def base64EncodeBytes : List Nat → Str
  | [] => []
  | [a] =>
    [ b64chars (a / 4), b64chars (a % 4 * 16), '=', '=' ]
  | [a, b] =>
    [ b64chars (a / 4), b64chars (a % 4 * 16 + b / 16), b64chars (b % 16 * 4), '=' ]
  | a :: b :: d :: rest =>
    [ b64chars (a / 4), b64chars (a % 4 * 16 + b / 16),
      b64chars (b % 16 * 4 + d / 64), b64chars (d % 64) ] ++
    base64EncodeBytes rest

/-- Modelled from the spec: the external base64 decoder, the inverse of
`base64EncodeBytes`. -/
def base64DecodeChars : Str → List Nat
  | c1 :: c2 :: c3 :: c4 :: rest =>
    if c3 = '=' then [ b64val c1 * 4 + b64val c2 / 16 ]
    else if c4 = '=' then
      [ b64val c1 * 4 + b64val c2 / 16, b64val c2 % 16 * 16 + b64val c3 / 4 ]
    else
      [ b64val c1 * 4 + b64val c2 / 16, b64val c2 % 16 * 16 + b64val c3 / 4,
        b64val c3 % 4 * 64 + b64val c4 ] ++ base64DecodeChars rest
  | _ => []

theorem base64DecodeChars_group (c1 c2 c3 c4 : Char) (rest : Str) :
    base64DecodeChars (c1 :: c2 :: c3 :: c4 :: rest) =
      if c3 = '=' then [ b64val c1 * 4 + b64val c2 / 16 ]
      else if c4 = '=' then
        [ b64val c1 * 4 + b64val c2 / 16, b64val c2 % 16 * 16 + b64val c3 / 4 ]
      else
        [ b64val c1 * 4 + b64val c2 / 16, b64val c2 % 16 * 16 + b64val c3 / 4,
          b64val c3 % 4 * 64 + b64val c4 ] ++ base64DecodeChars rest := rfl

theorem b64val_b64chars : ∀ n < 64, b64val (b64chars n) = n := by decide

theorem b64chars_ne_eq (n : Nat) : b64chars n ≠ '=' := by
  have h : n % 64 < 64 := Nat.mod_lt _ (by omega)
  unfold b64chars
  revert h
  generalize n % 64 = m
  intro h
  revert m
  decide

theorem b64chars_ne_space (n : Nat) : b64chars n ≠ ' ' := by
  have h : n % 64 < 64 := Nat.mod_lt _ (by omega)
  unfold b64chars
  revert h
  generalize n % 64 = m
  intro h
  revert m
  decide

/-- Round trip of the spec-modelled base64 codec on byte sequences. -/
theorem base64_roundtrip :
    ∀ (bs : List Nat), (∀ b ∈ bs, b < 256) →
      base64DecodeChars (base64EncodeBytes bs) = bs := by
  have main : ∀ (n : Nat) (bs : List Nat), bs.length ≤ n → (∀ b ∈ bs, b < 256) →
      base64DecodeChars (base64EncodeBytes bs) = bs := by
    intro n
    induction n with
    | zero =>
      intro bs hlen _
      have : bs = [] := List.length_eq_zero.mp (Nat.le_zero.mp hlen)
      subst this
      rfl
    | succ n ih =>
      intro bs hlen hlt
      match bs with
      | [] => rfl
      | [a] =>
        have ha : a < 256 := hlt a (by simp)
        show base64DecodeChars
          [ b64chars (a / 4), b64chars (a % 4 * 16), '=', '=' ] = [a]
        rw [base64DecodeChars_group, if_pos rfl]
        rw [b64val_b64chars _ (by omega), b64val_b64chars _ (by omega)]
        congr 1
        omega
      | [a, b] =>
        have ha : a < 256 := hlt a (by simp)
        have hb : b < 256 := hlt b (by simp)
        show base64DecodeChars
          [ b64chars (a / 4), b64chars (a % 4 * 16 + b / 16),
            b64chars (b % 16 * 4), '=' ] = [a, b]
        rw [base64DecodeChars_group, if_neg (b64chars_ne_eq _), if_pos rfl]
        rw [b64val_b64chars _ (by omega), b64val_b64chars _ (by omega),
          b64val_b64chars _ (by omega)]
        congr 1
        · omega
        · congr 1
          omega
      | a :: b :: d :: rest =>
        have ha : a < 256 := hlt a (by simp)
        have hb : b < 256 := hlt b (by simp)
        have hd : d < 256 := hlt d (by simp)
        show base64DecodeChars
          (b64chars (a / 4) :: b64chars (a % 4 * 16 + b / 16) ::
           b64chars (b % 16 * 4 + d / 64) :: b64chars (d % 64) ::
           base64EncodeBytes rest) = a :: b :: d :: rest
        rw [base64DecodeChars_group, if_neg (b64chars_ne_eq _),
          if_neg (b64chars_ne_eq _)]
        rw [b64val_b64chars _ (by omega), b64val_b64chars _ (by omega),
          b64val_b64chars _ (by omega), b64val_b64chars _ (by omega)]
        rw [ih rest (by simp at hlen; omega) (fun x hx => hlt x (by simp [hx]))]
        simp only [List.cons_append, List.nil_append]
        congr 1
        · omega
        · congr 1
          · omega
          · congr 1
            omega
  intro bs
  exact main bs.length bs (Nat.le_refl _)

theorem base64Encode_no_space :
    ∀ (bs : List Nat), ' ' ∉ base64EncodeBytes bs := by
  have main : ∀ (n : Nat) (bs : List Nat), bs.length ≤ n →
      ' ' ∉ base64EncodeBytes bs := by
    intro n
    induction n with
    | zero =>
      intro bs hlen
      have : bs = [] := List.length_eq_zero.mp (Nat.le_zero.mp hlen)
      subst this
      simp [base64EncodeBytes]
    | succ n ih =>
      intro bs hlen
      match bs with
      | [] => simp [base64EncodeBytes]
      | [a] =>
        simp only [base64EncodeBytes, List.mem_cons, List.not_mem_nil, or_false,
          not_or]
        exact ⟨fun h => b64chars_ne_space _ h.symm,
          fun h => b64chars_ne_space _ h.symm, by decide, by decide⟩
      | [a, b] =>
        simp only [base64EncodeBytes, List.mem_cons, List.not_mem_nil, or_false,
          not_or]
        exact ⟨fun h => b64chars_ne_space _ h.symm,
          fun h => b64chars_ne_space _ h.symm,
          fun h => b64chars_ne_space _ h.symm, by decide⟩
      | a :: b :: d :: rest =>
        simp only [base64EncodeBytes, List.cons_append, List.nil_append,
          List.mem_cons, not_or]
        refine ⟨fun h => b64chars_ne_space _ h.symm,
          fun h => b64chars_ne_space _ h.symm,
          fun h => b64chars_ne_space _ h.symm,
          fun h => b64chars_ne_space _ h.symm, ?_⟩
        exact ih rest (by simp at hlen; omega)
  intro bs
  exact main bs.length bs (Nat.le_refl _)

theorem litStarts_mem {f p : Str} (h : litStarts f p = true) :
    ∀ c ∈ f, c ∈ p := by
  induction f generalizing p with
  | nil => simp
  | cons a f ih =>
    cases p with
    | nil => simp [litStarts] at h
    | cons b p =>
      rw [litStarts, Bool.and_eq_true] at h
      intro c hc
      rcases List.mem_cons.mp hc with rfl | hc
      · rw [beq_iff_eq.mp h.1]
        simp
      · exact List.mem_cons_of_mem _ (ih h.2 c hc)

theorem skipGt_subset {l : Str} : ∀ c ∈ skipGt l, c ∈ l := by
  induction l with
  | nil => simp [skipGt]
  | cons a l ih =>
    intro c hc
    rw [skipGt] at hc
    by_cases ha : a = '>'
    · rw [if_pos ha] at hc
      exact List.mem_cons_of_mem _ (ih c hc)
    · rw [if_neg ha] at hc
      exact hc

theorem fromCheck_space {s : Str} (h : fromCheck s = true) : ' ' ∈ s := by
  unfold fromCheck at h
  exact skipGt_subset _ (litStarts_mem h ' ' (by decide))

theorem write_email_body_go_id :
    ∀ (fuel : Nat) {body : Str}, ' ' ∉ body →
      write_email_body_go fuel body = body := by
  intro fuel
  induction fuel with
  | zero => intro body _; rfl
  | succ n ih =>
    intro body hsp
    have hfc : fromCheck body = false := by
      cases h : fromCheck body with
      | true => exact absurd (fromCheck_space h) hsp
      | false => rfl
    rw [write_email_body_go, hfc, if_neg (by simp), List.nil_append]
    cases hfind : findNL body with
    | none => rfl
    | some i =>
      show body.take (i + 1) ++ write_email_body_go n (body.drop (i + 1)) = body
      rw [ih (fun hm => hsp (List.mem_of_mem_drop hm))]
      exact List.take_append_drop _ _

/-- On space-free text, such as base64 output, `write_email_body` writes its
input unchanged (no line can begin with `From ` after `>` skipping). -/
theorem write_email_body_id {s : Str} (h : ' ' ∉ s) :
    write_email_body s = s :=
  write_email_body_go_id _ h

/-- Embedding of `write_body_part` (lines 715-742): carriage returns are
removed, the charset is forced to `utf-8` for UTF-8 bodies, the whole part is
base64-encoded iff `test_base64` holds of the CR-stripped text, and the body
is written through `write_email_body` (the base64 text gains a trailing
newline).  The external `pst_base64_encode` collaborator is the spec-modelled
`base64EncodeBytes`. -/
def write_body_part (body : Str) (isUtf8 : Bool) (mime charset boundary : Str) :
    Str :=
  let b := removeCR body
  let cs := if isUtf8 then ("utf-8").toList else charset
  let b64 := test_base64 b
  ("\n--").toList ++ boundary ++ ("\n").toList ++
  ("Content-Type: ").toList ++ mime ++ ("; charset=\"").toList ++ cs ++
  ("\"\n").toList ++
  (if b64 then ("Content-Transfer-Encoding: base64\n").toList else []) ++
  ("\n").toList ++
  (if b64 then
    write_email_body (base64EncodeBytes (b.map Char.toNat)) ++ ("\n").toList
  else write_email_body b)

/-- C2 counterexample: the claim fails on the code in two places.  For the
all-printable body `From x\n` no base64 encoding happens and no
`Content-Transfer-Encoding` header is written, but the text is not written
literally: `write_email_body` prepends `>` to the `From ` line.  And for a
body containing a carriage return and a control byte, decoding the emitted
base64 yields the CR-stripped bytes, not the original bytes. -/
theorem c2_counterexample :
    (test_base64 (removeCR (("From x\n").toList)) = false ∧
      write_body_part (("From x\n").toList) false (("text/plain").toList)
          (("utf-8").toList) (("b").toList) =
        ("\n--b\nContent-Type: text/plain; charset=\"utf-8\"\n\n>From x\n").toList ∧
      write_body_part (("From x\n").toList) false (("text/plain").toList)
          (("utf-8").toList) (("b").toList) ≠
        ("\n--b\nContent-Type: text/plain; charset=\"utf-8\"\n\nFrom x\n").toList) ∧
    (test_base64 (removeCR [ '\r' , Char.ofNat 1 ]) = true ∧
      base64DecodeChars
          (base64EncodeBytes ((removeCR [ '\r' , Char.ofNat 1 ]).map Char.toNat)) ≠
        [ '\r' , Char.ofNat 1 ].map Char.toNat) := by
  exact ⟨⟨by decide, by decide, by decide⟩, ⟨by decide, by decide⟩⟩

/-- C2 (amended): `write_body_part` first removes every carriage return and
then base64-encodes the whole part iff some remaining byte is below 0x20 and
neither tab nor newline; an all-printable-plus-tab-and-newline body is never
base64-encoded (no `Content-Transfer-Encoding: base64` header is emitted) and
its text is written through the mbox `From `-quoting writer (hence literally
whenever no line starts with `From ` after leading `>`s); and for a body that
is base64-encoded, the emitted base64 text is written unchanged by the
quoting writer and decodes to exactly the CR-stripped body bytes. -/
theorem c2_write_body_part (body : Str) (isUtf8 : Bool)
    (mime charset boundary : Str) (hbytes : ∀ c ∈ body, c.toNat < 256) :
    (test_base64 (removeCR body) = true ↔
      ∃ c ∈ removeCR body, c.toNat < 32 ∧ c.toNat ≠ 9 ∧ c.toNat ≠ 10) ∧
    ((∀ c ∈ body, (32 ≤ c.toNat ∧ c.toNat ≤ 126) ∨ c.toNat = 9 ∨ c.toNat = 10) →
      test_base64 (removeCR body) = false ∧
      write_body_part body isUtf8 mime charset boundary =
        ("\n--").toList ++ boundary ++ ("\n").toList ++
        ("Content-Type: ").toList ++ mime ++ ("; charset=\"").toList ++
        (if isUtf8 then ("utf-8").toList else charset) ++ ("\"\n").toList ++
        ("\n").toList ++ write_email_body body) ∧
    (test_base64 (removeCR body) = true →
      write_body_part body isUtf8 mime charset boundary =
        ("\n--").toList ++ boundary ++ ("\n").toList ++
        ("Content-Type: ").toList ++ mime ++ ("; charset=\"").toList ++
        (if isUtf8 then ("utf-8").toList else charset) ++ ("\"\n").toList ++
        ("Content-Transfer-Encoding: base64\n").toList ++ ("\n").toList ++
        (base64EncodeBytes ((removeCR body).map Char.toNat) ++ ("\n").toList) ∧
      base64DecodeChars (base64EncodeBytes ((removeCR body).map Char.toNat)) =
        (removeCR body).map Char.toNat) := by
  refine ⟨test_base64_iff _, ?_, ?_⟩
  · intro hprint
    have hnocr : removeCR body = body := by
      unfold removeCR
      apply List.filter_eq_self.mpr
      intro c hc
      rcases hprint c hc with ⟨h1, _⟩ | h | h <;>
        · simp only [ne_eq, decide_eq_true_eq]
          intro he
          subst he
          simp_all
    have hb64 : test_base64 (removeCR body) = false := by
      cases hb : test_base64 (removeCR body) with
      | false => rfl
      | true =>
        obtain ⟨c, hc, hlt, h9, h10⟩ := (test_base64_iff _).mp hb
        rw [hnocr] at hc
        rcases hprint c hc with ⟨h1, _⟩ | h | h <;> omega
      
    refine ⟨hb64, ?_⟩
    unfold write_body_part
    rw [hnocr]
    rw [hnocr] at hb64
    simp only [hb64, Bool.false_eq_true, if_false, List.nil_append]
    simp [List.append_assoc]
  · intro hb64
    constructor
    · unfold write_body_part
      simp only [hb64, if_true]
      rw [write_email_body_id (base64Encode_no_space _)]
    · exact base64_roundtrip _ (by
        intro b hb
        obtain ⟨c, _, rfl⟩ := List.mem_map.mp hb
        exact hbytes c (List.mem_of_mem_filter (by assumption)))

/-- Witness for `c2_write_body_part` at a concrete control-byte body. -/
theorem c2_write_body_part_witness :
    (∀ c ∈ [ 'a' , Char.ofNat 1 ], c.toNat < 256) ∧
      (test_base64 (removeCR [ 'a' , Char.ofNat 1 ]) = true ↔
        ∃ c ∈ removeCR [ 'a' , Char.ofNat 1 ],
          c.toNat < 32 ∧ c.toNat ≠ 9 ∧ c.toNat ≠ 10) :=
  ⟨by decide,
   (c2_write_body_part [ 'a' , Char.ofNat 1 ] false (("text/plain").toList)
     (("x").toList) (("b").toList) (by decide)).1⟩

/- ------------------------------------------------------------------ -/
/- C5-C8: `write_appointment` (extract-pst.c lines 1314-1431) and      -/
/-        `write_extra_categories` (lines 1265-1283)                   -/
/- ------------------------------------------------------------------ -/

/-- The libpst free/busy constants (`PST_FREEBUSY_*`); `other` stands for any
value outside the four named ones, for which the C switch has no case. -/
inductive FreeBusy where
  | free | tentative | busy | outOfOffice | other
deriving DecidableEq

/-- The libpst appointment label constants (`PST_APP_LABEL_*`); `other`
stands for any value outside the eleven named ones, for which the C switch
has no case. -/
inductive AppLabel where
  | noLabel | important | business | personal | vacation | mustAttend
  | travelReq | needsPrep | birthday | anniversary | phoneCall | other
deriving DecidableEq

/-- Recurrence frequency codes of the converted recurrence data
(`pst_recurrence.type`, indexing the C `rules` array). -/
inductive RecurFreq where
  | daily | weekly | monthly | yearly
deriving DecidableEq

/-- The `rules` array (line 1356). -/
def freqName : RecurFreq → Str
  | .daily => ("DAILY").toList
  | .weekly => ("WEEKLY").toList
  | .monthly => ("MONTHLY").toList
  | .yearly => ("YEARLY").toList

/-- The `days` array (line 1357). -/
def dayName : Nat → Str
  | 0 => ("SU").toList
  | 1 => ("MO").toList
  | 2 => ("TU").toList
  | 3 => ("WE").toList
  | 4 => ("TH").toList
  | 5 => ("FR").toList
  | 6 => ("SA").toList
  | _ => []

/-- Converted recurrence data handed back by the external
`pst_convert_recurrence` collaborator. -/
structure Recurrence where
  rtype : RecurFreq
  count : Nat
  interval : Nat
  dayofmonth : Nat
  monthofyear : Nat
  position : Nat
  bydaymask : Nat
deriving DecidableEq

/-- Decimal rendering of a natural number (`%u`/`%d` on a non-negative
value). -/
def natStr (n : Nat) : Str := (Nat.repr n).toList

/-- Decimal rendering of a signed integer (`%d`). -/
def intStr : Int → Str
  | Int.ofNat n => natStr n
  | Int.negSucc n => '-' :: natStr (n + 1)

/-- The BYDAY-building loop of `write_appointment` (lines 1366-1381): scan
the given bit indices in order; for each set mask bit append
`;BYDAY=`-prefix (first time) or `;` (afterwards) and the two-letter weekday
code. -/
def bydayFold (mask : Nat) : List Nat → Str → Bool → Str
  | [], acc, _ => acc
  | i :: rest, acc, empty =>
    if Nat.testBit mask i then
      bydayFold mask rest
        (acc ++ (if empty then (";BYDAY=").toList else [ ';' ]) ++ dayName i)
        false
    else bydayFold mask rest acc empty

/-- The BYDAY group text produced by the loop `for (i=0; i<6; i++)` of
`write_appointment`: only bits 0 through 5 are scanned. -/
def bydayGroup (mask : Nat) : Str :=
  bydayFold mask [0, 1, 2, 3, 4, 5] [] true

/-- Specification-side BYDAY group, following the claim's words: the
two-letter codes of mask bits 0 through 5, joined by `;`, the whole group
prefixed once with `BYDAY=` (itself preceded by the `;` separating it from
the rest of the RRULE). -/
def bydaySpec (mask : Nat) : Str :=
  match (List.range 6).filterMap
      (fun i => if Nat.testBit mask i then some (dayName i) else none) with
  | [] => []
  | codes => (";BYDAY=").toList ++ joinSemi codes
where
  joinSemi : List Str → Str
    | [] => []
    | [x] => x
    | x :: xs => x ++ ';' :: joinSemi xs

/-- The RRULE line of `write_appointment` (lines 1355-1382). -/
def rruleLine (r : Recurrence) : Str :=
  ("RRULE:FREQ=").toList ++ freqName r.rtype ++
  (if r.count ≠ 0 then (";COUNT=").toList ++ natStr r.count else []) ++
  (if r.interval ≠ 1 ∧ r.interval ≠ 0 then
    (";INTERVAL=").toList ++ natStr r.interval else []) ++
  (if r.dayofmonth ≠ 0 then (";BYMONTHDAY=").toList ++ natStr r.dayofmonth else []) ++
  (if r.monthofyear ≠ 0 then (";BYMONTH=").toList ++ natStr r.monthofyear else []) ++
  (if r.position ≠ 0 then (";BYSETPOS=").toList ++ natStr r.position else []) ++
  (if r.bydaymask ≠ 0 then bydayGroup r.bydaymask else [])

/-- The STATUS/TRANSP lines of the free/busy switch (lines 1342-1354): the C
`case PST_FREEBUSY_FREE` prints `TRANSP:TRANSPARENT` and falls through into
the `STATUS:CONFIRMED` arm shared with busy and out-of-office; a value with
no case prints nothing. -/
def statusLines : FreeBusy → List Str
  | .tentative => [ ("STATUS:TENTATIVE").toList ]
  | .free => [ ("TRANSP:TRANSPARENT").toList, ("STATUS:CONFIRMED").toList ]
  | .busy => [ ("STATUS:CONFIRMED").toList ]
  | .outOfOffice => [ ("STATUS:CONFIRMED").toList ]
  | .other => []

/-- Keywords extra-field values of an item (the `field_name == "Keywords"`
scan of `write_extra_categories`). -/
def keywordsOf (efs : List (Str × Str)) : List Str :=
  (efs.filter (fun p => p.1 = ("Keywords").toList)).map (·.2)

/-- Joining with `", "`, as produced by the `fmt` switch of
`write_extra_categories`. -/
def joinCommaSp : List Str → Str
  | [] => []
  | [x] => x
  | x :: xs => x ++ (", ").toList ++ joinCommaSp xs

/-- Embedding of `write_extra_categories` (lines 1265-1283): one
`CATEGORIES:` line joining every Keywords value with `", "`, or nothing when
there is no Keywords field. -/
def write_extra_categories (efs : List (Str × Str)) : List Str :=
  match keywordsOf efs with
  | [] => []
  | ks => [ ("CATEGORIES:").toList ++ joinCommaSp ks ]

/-- The label switch of `write_appointment` (lines 1385-1419). -/
def categoriesLines (label : AppLabel) (efs : List (Str × Str)) : List Str :=
  match label with
  | .noLabel =>
    match write_extra_categories efs with
    | [] => [ ("CATEGORIES:NONE").toList ]
    | ls => ls
  | .important => [ ("CATEGORIES:IMPORTANT").toList ]
  | .business => [ ("CATEGORIES:BUSINESS").toList ]
  | .personal => [ ("CATEGORIES:PERSONAL").toList ]
  | .vacation => [ ("CATEGORIES:VACATION").toList ]
  | .mustAttend => [ ("CATEGORIES:MUST-ATTEND").toList ]
  | .travelReq => [ ("CATEGORIES:TRAVEL-REQUIRED").toList ]
  | .needsPrep => [ ("CATEGORIES:NEEDS-PREPARATION").toList ]
  | .birthday => [ ("CATEGORIES:BIRTHDAY").toList ]
  | .anniversary => [ ("CATEGORIES:ANNIVERSARY").toList ]
  | .phoneCall => [ ("CATEGORIES:PHONE-CALL").toList ]
  | .other => []

/-- The alarm block of `write_appointment` (lines 1420-1427): emitted only
when the alarm flag is set and the lead time is in `[0, 1440)` minutes. -/
def alarmLines (alarm : Bool) (m : Int) : List Str :=
  if alarm = true ∧ 0 ≤ m ∧ m < 1440 then
    [ ("BEGIN:VALARM").toList,
      ("TRIGGER:-PT").toList ++ intStr m ++ [ 'M' ],
      ("ACTION:DISPLAY").toList,
      ("DESCRIPTION:Reminder").toList,
      ("END:VALARM").toList ]
  else []

/-- A `pst_item` with its `pst_item_appointment`, restricted to the fields
read by `write_appointment`; the externally formatted texts (UID, timestamps,
escaped subject/body/location) are carried as the strings the external
formatting collaborators returned. -/
structure Appt where
  uid : Str
  dtstamp : Str
  created : Option Str
  lastMod : Option Str
  summary : Option Str
  descr : Option Str
  dtstart : Option Str
  dtend : Option Str
  location : Option Str
  showas : FreeBusy
  isRecurring : Bool
  rdata : Recurrence
  label : AppLabel
  extraFields : List (Str × Str)
  alarm : Bool
  alarmMinutes : Int

/-- A `fprintf`ed line of one `Option`-valued field. -/
def optLine (p : Str) : Option Str → List Str
  | none => []
  | some v => [ p ++ v ]

/-- Embedding of `write_appointment` (lines 1314-1431), as the list of lines
written between the wrapper's `BEGIN:VEVENT` and the end of the function. -/
def write_appointment (a : Appt) : List Str :=
  [ ("UID:").toList ++ a.uid ] ++
  [ ("DTSTAMP:").toList ++ a.dtstamp ] ++
  optLine (("CREATED:").toList) a.created ++
  optLine (("LAST-MOD:").toList) a.lastMod ++
  optLine (("SUMMARY:").toList) a.summary ++
  optLine (("DESCRIPTION:").toList) a.descr ++
  optLine (("DTSTART;VALUE=DATE-TIME:").toList) a.dtstart ++
  optLine (("DTEND;VALUE=DATE-TIME:").toList) a.dtend ++
  optLine (("LOCATION:").toList) a.location ++
  statusLines a.showas ++
  (if a.isRecurring = true then [ rruleLine a.rdata ] else []) ++
  categoriesLines a.label a.extraFields ++
  alarmLines a.alarm a.alarmMinutes ++
  [ ("END:VEVENT").toList ]

/-- A STATUS or TRANSP line. -/
def isStatusTransp (l : Str) : Bool :=
  litStarts (("STATUS:").toList) l || litStarts (("TRANSP:").toList) l

/-- Specification-side free/busy mapping, following the claim's words:
tentative produces exactly `STATUS:TENTATIVE`; free produces
`TRANSP:TRANSPARENT` followed immediately by `STATUS:CONFIRMED`; busy and
out-of-office each produce only `STATUS:CONFIRMED`; any other value produces
neither a STATUS nor a TRANSP line. -/
def statusSpec : FreeBusy → List Str
  | .tentative => [ ("STATUS:TENTATIVE").toList ]
  | .free => [ ("TRANSP:TRANSPARENT").toList, ("STATUS:CONFIRMED").toList ]
  | .busy => [ ("STATUS:CONFIRMED").toList ]
  | .outOfOffice => [ ("STATUS:CONFIRMED").toList ]
  | .other => []

theorem filter_optLine {pred : Str → Bool} {p : Str}
    (h : ∀ s, pred (p ++ s) = false) (v : Option Str) :
    (optLine p v).filter pred = [] := by
  cases v with
  | none => rfl
  | some s => simp [optLine, h s]

theorem filter_single_false {pred : Str → Bool} {x : Str} (h : pred x = false) :
    [x].filter pred = [] := by
  simp [h]

theorem filter_categories_statusTransp (label : AppLabel)
    (efs : List (Str × Str)) :
    (categoriesLines label efs).filter isStatusTransp = [] := by
  cases label <;>
    first
    | (unfold categoriesLines write_extra_categories
       cases hk : keywordsOf efs with
       | nil => decide
       | cons k ks =>
         exact filter_single_false (show isStatusTransp
           (("CATEGORIES:").toList ++ joinCommaSp (k :: ks)) = false from rfl))
    | decide

theorem filter_alarm_statusTransp (al : Bool) (m : Int) :
    (alarmLines al m).filter isStatusTransp = [] := by
  unfold alarmLines
  split
  · simp only [List.filter_cons, List.filter_nil]
    rw [show isStatusTransp (("TRIGGER:-PT").toList ++ intStr m ++ [ 'M' ])
      = false from rfl]
    simp only [Bool.false_eq_true, if_false]
    decide
  · rfl

theorem filter_recur {pred : Str → Bool} {b : Bool} {r : Recurrence}
    (h : pred (rruleLine r) = false) :
    ((if b = true then [ rruleLine r ] else []).filter pred) = [] := by
  cases b
  · rfl
  · simp [h]

/-- C5: in `write_appointment` the free/busy status maps to output as a
three-way rule: tentative produces exactly `STATUS:TENTATIVE`; free produces
`TRANSP:TRANSPARENT` followed immediately by `STATUS:CONFIRMED`, in that
order; busy and out-of-office each produce only `STATUS:CONFIRMED`; any other
value produces neither a STATUS nor a TRANSP line. -/
theorem c5_freebusy_mapping (a : Appt) :
    (write_appointment a).filter isStatusTransp = statusSpec a.showas := by
  unfold write_appointment
  simp only [List.singleton_append, List.filter_append, List.filter_cons]
  rw [show isStatusTransp (("UID:").toList ++ a.uid) = false from rfl,
    show isStatusTransp (("DTSTAMP:").toList ++ a.dtstamp) = false from rfl]
  rw [filter_optLine (fun s => rfl) a.created,
    filter_optLine (fun s => rfl) a.lastMod,
    filter_optLine (fun s => rfl) a.summary,
    filter_optLine (fun s => rfl) a.descr,
    filter_optLine (fun s => rfl) a.dtstart,
    filter_optLine (fun s => rfl) a.dtend,
    filter_optLine (fun s => rfl) a.location]
  rw [filter_recur (show isStatusTransp (rruleLine a.rdata) = false from rfl)]
  rw [filter_categories_statusTransp a.label a.extraFields]
  rw [filter_alarm_statusTransp a.alarm a.alarmMinutes]
  rw [show isStatusTransp (("END:VEVENT").toList) = false from rfl]
  simp only [Bool.false_eq_true, if_false, List.filter_nil, List.append_nil,
    List.nil_append]
  cases a.showas <;> decide

theorem filter_categories_nil {pred : Str → Bool}
    (h : ∀ s, pred (("CATEGORIES:").toList ++ s) = false)
    (label : AppLabel) (efs : List (Str × Str)) :
    (categoriesLines label efs).filter pred = [] := by
  cases label with
  | noLabel =>
    simp only [categoriesLines, write_extra_categories]
    cases hk : keywordsOf efs with
    | nil => exact filter_single_false (h (("NONE").toList))
    | cons k ks => exact filter_single_false (h (joinCommaSp (k :: ks)))
  | important => exact filter_single_false (h (("IMPORTANT").toList))
  | business => exact filter_single_false (h (("BUSINESS").toList))
  | personal => exact filter_single_false (h (("PERSONAL").toList))
  | vacation => exact filter_single_false (h (("VACATION").toList))
  | mustAttend => exact filter_single_false (h (("MUST-ATTEND").toList))
  | travelReq => exact filter_single_false (h (("TRAVEL-REQUIRED").toList))
  | needsPrep => exact filter_single_false (h (("NEEDS-PREPARATION").toList))
  | birthday => exact filter_single_false (h (("BIRTHDAY").toList))
  | anniversary => exact filter_single_false (h (("ANNIVERSARY").toList))
  | phoneCall => exact filter_single_false (h (("PHONE-CALL").toList))
  | other => rfl

theorem filter_alarm_nil {pred : Str → Bool}
    (hb : pred (("BEGIN:VALARM").toList) = false)
    (ht : ∀ s, pred (("TRIGGER:-PT").toList ++ s) = false)
    (ha : pred (("ACTION:DISPLAY").toList) = false)
    (hd : pred (("DESCRIPTION:Reminder").toList) = false)
    (he : pred (("END:VALARM").toList) = false)
    (al : Bool) (m : Int) :
    (alarmLines al m).filter pred = [] := by
  unfold alarmLines
  split
  · simp only [List.filter_cons, List.filter_nil, List.append_assoc, hb, ht,
      ha, hd, he, Bool.false_eq_true, if_false]
  · rfl

theorem filter_status_nil {pred : Str → Bool}
    (h1 : pred (("STATUS:TENTATIVE").toList) = false)
    (h2 : pred (("TRANSP:TRANSPARENT").toList) = false)
    (h3 : pred (("STATUS:CONFIRMED").toList) = false) :
    ∀ f, (statusLines f).filter pred = [] := by
  intro f
  cases f with
  | tentative => exact filter_single_false h1
  | free =>
    simp only [statusLines, List.filter_cons, List.filter_nil, h2, h3,
      Bool.false_eq_true, if_false]
  | busy => exact filter_single_false h3
  | outOfOffice => exact filter_single_false h3
  | other => rfl

/-- An RRULE line. -/
def isRRule (l : Str) : Bool := litStarts (("RRULE:").toList) l

theorem filter_rrule_write_appointment (a : Appt)
    (hrec : a.isRecurring = true) :
    (write_appointment a).filter isRRule = [ rruleLine a.rdata ] := by
  unfold write_appointment
  simp only [List.singleton_append, List.filter_append, List.filter_cons]
  rw [show isRRule (("UID:").toList ++ a.uid) = false from rfl,
    show isRRule (("DTSTAMP:").toList ++ a.dtstamp) = false from rfl]
  rw [filter_optLine (fun s => rfl) a.created,
    filter_optLine (fun s => rfl) a.lastMod,
    filter_optLine (fun s => rfl) a.summary,
    filter_optLine (fun s => rfl) a.descr,
    filter_optLine (fun s => rfl) a.dtstart,
    filter_optLine (fun s => rfl) a.dtend,
    filter_optLine (fun s => rfl) a.location]
  rw [filter_status_nil rfl rfl rfl a.showas]
  rw [filter_categories_nil (fun s => rfl) a.label a.extraFields]
  rw [filter_alarm_nil rfl (fun s => rfl) rfl rfl rfl a.alarm a.alarmMinutes]
  rw [show isRRule (("END:VEVENT").toList) = false from rfl]
  rw [hrec]
  simp only [if_true, List.filter_cons, List.filter_nil,
    Bool.false_eq_true, if_false, List.append_nil, List.nil_append]
  rw [show isRRule (rruleLine a.rdata) = true from rfl]
  simp

/-- C6: for a recurring appointment whose converted recurrence data is
frequency WEEKLY, count 10, interval 2, day-of-month 0, month-of-year 0,
set-position 0 and weekday mask with exactly bits 1 (Monday) and 3
(Wednesday) set, `write_appointment` emits exactly the RRULE line
`RRULE:FREQ=WEEKLY;COUNT=10;INTERVAL=2;BYDAY=MO;WE`. -/
theorem c6_rrule_weekly_example (a : Appt) (hrec : a.isRecurring = true)
    (hr : a.rdata = ⟨RecurFreq.weekly, 10, 2, 0, 0, 0, 10⟩) :
    (write_appointment a).filter isRRule =
      [ ("RRULE:FREQ=WEEKLY;COUNT=10;INTERVAL=2;BYDAY=MO;WE").toList ] := by
  rw [filter_rrule_write_appointment a hrec, hr]
  decide

/-- A concrete recurring appointment for the C6 witness. -/
def c6Appt : Appt :=
  { uid := ("1").toList, dtstamp := ("T").toList,
    created := none, lastMod := none, summary := none, descr := none,
    dtstart := none, dtend := none, location := none,
    showas := FreeBusy.other, isRecurring := true,
    rdata := ⟨RecurFreq.weekly, 10, 2, 0, 0, 0, 10⟩,
    label := AppLabel.other, extraFields := [], alarm := false,
    alarmMinutes := 0 }

/-- Witness for `c6_rrule_weekly_example` at a concrete appointment. -/
theorem c6_rrule_weekly_example_witness :
    (c6Appt.isRecurring = true ∧
      c6Appt.rdata = ⟨RecurFreq.weekly, 10, 2, 0, 0, 0, 10⟩) ∧
    (write_appointment c6Appt).filter isRRule =
      [ ("RRULE:FREQ=WEEKLY;COUNT=10;INTERVAL=2;BYDAY=MO;WE").toList ] :=
  ⟨⟨rfl, rfl⟩, c6_rrule_weekly_example c6Appt rfl rfl⟩

/-- A concrete recurring appointment whose weekday mask has only bit 6
(Saturday) set, for C7. -/
def c7Appt : Appt :=
  { uid := ("1").toList, dtstamp := ("T").toList,
    created := none, lastMod := none, summary := none, descr := none,
    dtstart := none, dtend := none, location := none,
    showas := FreeBusy.other, isRecurring := true,
    rdata := ⟨RecurFreq.weekly, 0, 1, 0, 0, 0, 64⟩,
    label := AppLabel.other, extraFields := [], alarm := false,
    alarmMinutes := 0 }

/-- C7: for every weekday mask, the BYDAY group emitted in the RRULE is the
two-letter codes of mask bits 0 through 5 only, joined by `;` and prefixed
once with `BYDAY=`; bit 6 (Saturday) is never inspected, so a non-zero mask
with only bit 6 set yields no BYDAY group at all — concretely, a recurring
appointment with weekday mask 64 (and no other recurrence fields) emits the
bare line `RRULE:FREQ=WEEKLY`. -/
theorem c7_byday_bits :
    (∀ mask, bydayGroup mask = bydaySpec mask) ∧
    bydayGroup 64 = [] ∧
    (write_appointment c7Appt).filter isRRule =
      [ ("RRULE:FREQ=WEEKLY").toList ] := by
  refine ⟨?_, by decide, ?_⟩
  · intro mask
    have hbit : ∀ i < 6, Nat.testBit mask i = Nat.testBit (mask % 64) i := by
      intro i hi
      rw [show (64 : Nat) = 2 ^ 6 from rfl, Nat.testBit_mod_two_pow]
      simp [hi]
    have hgroup : bydayGroup mask = bydayGroup (mask % 64) := by
      unfold bydayGroup
      have congrFold : ∀ (is : List Nat), (∀ i ∈ is,
          Nat.testBit mask i = Nat.testBit (mask % 64) i) →
          ∀ acc e, bydayFold mask is acc e = bydayFold (mask % 64) is acc e := by
        intro is
        induction is with
        | nil => intro _ acc e; rfl
        | cons i rest ih =>
          intro hmem acc e
          simp only [bydayFold]
          rw [hmem i (by simp)]
          cases hb : Nat.testBit (mask % 64) i <;>
            simp only [Bool.false_eq_true, if_false, if_true] <;>
              exact ih (fun j hj => hmem j (by simp [hj])) _ _
      exact congrFold _ (fun i hi => hbit i (by fin_cases hi <;> omega)) _ _
    have hspec : bydaySpec mask = bydaySpec (mask % 64) := by
      unfold bydaySpec
      rw [List.filterMap_congr (fun i hi => by
        rw [show Nat.testBit mask i = Nat.testBit (mask % 64) i from
          hbit i (by simpa using hi)])]
    rw [hgroup, hspec]
    exact (by decide : ∀ m < 64, bydayGroup m = bydaySpec m) _
      (Nat.mod_lt _ (by omega))
  · rw [filter_rrule_write_appointment c7Appt rfl]
    decide

/-- The opening line of a VALARM block. -/
def isValarmBegin (l : Str) : Bool := l == ("BEGIN:VALARM").toList

/-- A VALARM marker line: the block opener or a TRIGGER line. -/
def isAlarmMarker (l : Str) : Bool :=
  (l == ("BEGIN:VALARM").toList) || litStarts (("TRIGGER:").toList) l

theorem filter_alarmMarker_alarmLines (al : Bool) (m : Int) :
    (alarmLines al m).filter isAlarmMarker =
      if al = true ∧ 0 ≤ m ∧ m < 1440 then
        [ ("BEGIN:VALARM").toList,
          ("TRIGGER:-PT").toList ++ intStr m ++ [ 'M' ] ]
      else [] := by
  unfold alarmLines
  split
  · simp only [List.filter_cons, List.filter_nil, List.append_assoc]
    rw [show isAlarmMarker (("BEGIN:VALARM").toList) = true from rfl,
      show isAlarmMarker (("TRIGGER:-PT").toList ++ (intStr m ++ [ 'M' ]))
        = true from rfl,
      show isAlarmMarker (("ACTION:DISPLAY").toList) = false from rfl,
      show isAlarmMarker (("DESCRIPTION:Reminder").toList) = false from rfl,
      show isAlarmMarker (("END:VALARM").toList) = false from rfl]
    simp
  · rfl

theorem filter_alarmMarker_write_appointment (a : Appt) :
    (write_appointment a).filter isAlarmMarker =
      if a.alarm = true ∧ 0 ≤ a.alarmMinutes ∧ a.alarmMinutes < 1440 then
        [ ("BEGIN:VALARM").toList,
          ("TRIGGER:-PT").toList ++ intStr a.alarmMinutes ++ [ 'M' ] ]
      else [] := by
  unfold write_appointment
  simp only [List.singleton_append, List.filter_append, List.filter_cons]
  rw [show isAlarmMarker (("UID:").toList ++ a.uid) = false from rfl,
    show isAlarmMarker (("DTSTAMP:").toList ++ a.dtstamp) = false from rfl]
  rw [filter_optLine (fun s => rfl) a.created,
    filter_optLine (fun s => rfl) a.lastMod,
    filter_optLine (fun s => rfl) a.summary,
    filter_optLine (fun s => rfl) a.descr,
    filter_optLine (fun s => rfl) a.dtstart,
    filter_optLine (fun s => rfl) a.dtend,
    filter_optLine (fun s => rfl) a.location]
  rw [filter_status_nil rfl rfl rfl a.showas]
  rw [filter_categories_nil (fun s => rfl) a.label a.extraFields]
  rw [filter_recur (show isAlarmMarker (rruleLine a.rdata) = false from rfl)]
  rw [filter_alarmMarker_alarmLines a.alarm a.alarmMinutes]
  rw [show isAlarmMarker (("END:VEVENT").toList) = false from rfl]
  simp only [Bool.false_eq_true, if_false, List.filter_nil, List.append_nil,
    List.nil_append]

/-- C8: `write_appointment` emits a VALARM block — `BEGIN:VALARM`,
`TRIGGER:-PT<n>M` with `n` the lead-time minutes, `ACTION:DISPLAY`,
`DESCRIPTION:Reminder`, `END:VALARM` — if and only if the alarm flag is set
and the lead time is at least 0 and strictly below 1440 minutes; when the
condition fails, no `BEGIN:VALARM` line appears anywhere in the output. -/
theorem c8_alarm_window (a : Appt) :
    ((write_appointment a).filter isAlarmMarker =
      if a.alarm = true ∧ 0 ≤ a.alarmMinutes ∧ a.alarmMinutes < 1440 then
        [ ("BEGIN:VALARM").toList,
          ("TRIGGER:-PT").toList ++ intStr a.alarmMinutes ++ [ 'M' ] ]
      else []) ∧
    (a.alarm = true → 0 ≤ a.alarmMinutes → a.alarmMinutes < 1440 →
      ∃ p q, write_appointment a =
        p ++ [ ("BEGIN:VALARM").toList,
               ("TRIGGER:-PT").toList ++ intStr a.alarmMinutes ++ [ 'M' ],
               ("ACTION:DISPLAY").toList,
               ("DESCRIPTION:Reminder").toList,
               ("END:VALARM").toList ] ++ q) ∧
    (¬(a.alarm = true ∧ 0 ≤ a.alarmMinutes ∧ a.alarmMinutes < 1440) →
      ("BEGIN:VALARM").toList ∉ write_appointment a) := by
  refine ⟨filter_alarmMarker_write_appointment a, ?_, ?_⟩
  · intro h1 h2 h3
    refine ⟨[ ("UID:").toList ++ a.uid ] ++
      [ ("DTSTAMP:").toList ++ a.dtstamp ] ++
      optLine (("CREATED:").toList) a.created ++
      optLine (("LAST-MOD:").toList) a.lastMod ++
      optLine (("SUMMARY:").toList) a.summary ++
      optLine (("DESCRIPTION:").toList) a.descr ++
      optLine (("DTSTART;VALUE=DATE-TIME:").toList) a.dtstart ++
      optLine (("DTEND;VALUE=DATE-TIME:").toList) a.dtend ++
      optLine (("LOCATION:").toList) a.location ++
      statusLines a.showas ++
      (if a.isRecurring = true then [ rruleLine a.rdata ] else []) ++
      categoriesLines a.label a.extraFields,
      [ ("END:VEVENT").toList ], ?_⟩
    unfold write_appointment
    rw [show alarmLines a.alarm a.alarmMinutes =
      [ ("BEGIN:VALARM").toList,
        ("TRIGGER:-PT").toList ++ intStr a.alarmMinutes ++ [ 'M' ],
        ("ACTION:DISPLAY").toList,
        ("DESCRIPTION:Reminder").toList,
        ("END:VALARM").toList ] from by
        unfold alarmLines
        rw [if_pos ⟨h1, h2, h3⟩]]
  · intro hcond hmem
    have hfil : ("BEGIN:VALARM").toList ∈
        (write_appointment a).filter isAlarmMarker :=
      List.mem_filter.mpr ⟨hmem, by decide⟩
    rw [filter_alarmMarker_write_appointment a, if_neg hcond] at hfil
    simp at hfil

/-- A concrete appointment with an alarm 15 minutes ahead, for C8. -/
def c8Appt15 : Appt :=
  { uid := ("1").toList, dtstamp := ("T").toList,
    created := none, lastMod := none, summary := none, descr := none,
    dtstart := none, dtend := none, location := none,
    showas := FreeBusy.other, isRecurring := false,
    rdata := ⟨RecurFreq.daily, 0, 1, 0, 0, 0, 0⟩,
    label := AppLabel.other, extraFields := [], alarm := true,
    alarmMinutes := 15 }

/-- A concrete appointment with an out-of-range 1500-minute alarm, for C8. -/
def c8Appt1500 : Appt :=
  { uid := ("1").toList, dtstamp := ("T").toList,
    created := none, lastMod := none, summary := none, descr := none,
    dtstart := none, dtend := none, location := none,
    showas := FreeBusy.other, isRecurring := false,
    rdata := ⟨RecurFreq.daily, 0, 1, 0, 0, 0, 0⟩,
    label := AppLabel.other, extraFields := [], alarm := true,
    alarmMinutes := 1500 }

/-- Witness for `c8_alarm_window`: lead time 15 produces the VALARM block
with `TRIGGER:-PT15M`, and lead time 1500 produces no VALARM block. -/
theorem c8_alarm_window_witness :
    (c8Appt15.alarm = true ∧ (0 : Int) ≤ c8Appt15.alarmMinutes ∧
      c8Appt15.alarmMinutes < 1440) ∧
    (∃ p q, write_appointment c8Appt15 =
      p ++ [ ("BEGIN:VALARM").toList,
             ("TRIGGER:-PT").toList ++ intStr c8Appt15.alarmMinutes ++ [ 'M' ],
             ("ACTION:DISPLAY").toList,
             ("DESCRIPTION:Reminder").toList,
             ("END:VALARM").toList ] ++ q) ∧
    ("BEGIN:VALARM").toList ∉ write_appointment c8Appt1500 :=
  ⟨⟨rfl, by decide, by decide⟩,
   (c8_alarm_window c8Appt15).2.1 rfl (by decide) (by decide),
   (c8_alarm_window c8Appt1500).2.2 (by decide)⟩

/- ------------------------------------------------------------------ -/
/- C9: `write_inline_attachment` (lines 485-536), `write_embedded_message` -/
/-     (lines 417-456) and the attachment loop of `write_normal_email`     -/
/-     (lines 1069-1095)                                                   -/
/- ------------------------------------------------------------------ -/

/-- Attachment method: `PST_ATTACH_EMBEDDED` or any other (inline) method. -/
inductive AMethod where
  | embedded | normal
deriving DecidableEq

/-- What the external `pst_parse_item` returned for an embedded attachment's
bytes: whether the parsed item has a mail envelope (`item->email`), and the
document the recursive `write_normal_email` call writes for it. -/
structure EmbeddedParse where
  hasEmail : Bool
  rendered : Str

/-- A `pst_item_attach` record, restricted to the fields the two attachment
writers read.  `parsedItem` carries the outcome of the external
`pst_parse_item` call on the embedded bytes (`none` when parsing fails). -/
structure AttachRec where
  method : AMethod
  data : Option (List Nat)
  i_id : Nat
  mimetype : Option Str
  content_id : Option Str
  filename1 : Option Str
  filename2 : Option Str
  parsedItem : Option EmbeddedParse

/-- Embedding of `quote_string` (lines 461-483): backslash-escape every quote
and backslash (the output of the writing loop; the counting loop only sizes
the buffer). -/
def joinAll : List Str → Str
  | [] => []
  | x :: xs => x ++ joinAll xs

theorem joinAll_append (a b : List Str) :
    joinAll (a ++ b) = joinAll a ++ joinAll b := by
  induction a with
  | nil => rfl
  | cons x xs ih => simp [joinAll, ih, List.append_assoc]

def quote_string (s : Str) : Str :=
  joinAll (s.map (fun c => if c = '"' ∨ c = '\\' then [ '\\' , c ] else [c]))

/-- Embedding of `write_embedded_message` (lines 417-456): when the external
`pst_parse_item` fails, or the parsed item has no mail envelope, nothing is
written; otherwise a boundary line, a `Content-Type` line carrying the
mimetype — which the caller has just forced to `message/rfc822` — and the
recursively assembled document. -/
def write_embedded_message (attach : AttachRec) (boundary : Str) : Str :=
  match attach.parsedItem with
  | none => []
  | some p =>
    if p.hasEmail = true then
      ("\n--").toList ++ boundary ++ ("\n").toList ++
      ("Content-Type: message/rfc822\n\n").toList ++ p.rendered
    else []

/-- Embedding of `write_inline_attachment` (lines 485-536), parameterised by
the container's id-resolution map (`pst_getID`, `none` = unresolvable id) and
the external RFC2231 filename encoder.  With no inline bytes and an
unresolvable id the function returns before writing anything; otherwise it
writes the boundary, a `Content-Type` (defaulted to
`application/octet-stream`), `Content-Transfer-Encoding: base64`, an optional
`Content-ID`, the three-way `Content-Disposition`, and the base64 of the
attachment bytes. -/
def write_inline_attachment (fetch : Nat → Option (List Nat))
    (rfc2231 : Str → Str) (attach : AttachRec) (boundary : Str) : Str :=
  if attach.data = none ∧ fetch attach.i_id = none then []
  else
    ("\n--").toList ++ boundary ++ ("\n").toList ++
    (match attach.mimetype with
     | none => ("Content-Type: application/octet-stream\n").toList
     | some m => ("Content-Type: ").toList ++ m ++ ("\n").toList) ++
    ("Content-Transfer-Encoding: base64\n").toList ++
    (match attach.content_id with
     | none => []
     | some cid => ("Content-ID: <").toList ++ cid ++ (">\n").toList) ++
    (match attach.filename2 with
     | some f2 =>
       ("Content-Disposition: attachment; \n        filename*=").toList ++
       rfc2231 f2 ++ (";\n").toList ++
       ("        filename=\"").toList ++ quote_string f2 ++ ("\"\n\n").toList
     | none =>
       match attach.filename1 with
       | some f1 =>
         ("Content-Disposition: attachment; filename=\"").toList ++ f1 ++
         ("\"\n\n").toList
       | none => ("Content-Disposition: inline\n\n").toList) ++
    base64EncodeBytes ((attach.data).getD ((fetch attach.i_id).getD [])) ++
    ("\n\n").toList

/-- One iteration of the attachment loop of `write_normal_email` (lines
1073-1092): an embedded attachment goes through `write_embedded_message`
(with its mimetype forced to `message/rfc822`); any other attachment goes
through `write_inline_attachment` when it has inline bytes or a non-zero
fetch id, and is skipped silently otherwise. -/
def email_attachment_one (fetch : Nat → Option (List Nat))
    (rfc2231 : Str → Str) (boundary : Str) (attach : AttachRec) : Str :=
  match attach.method with
  | .embedded => write_embedded_message attach boundary
  | .normal =>
    if attach.data ≠ none ∨ attach.i_id ≠ 0 then
      write_inline_attachment fetch rfc2231 attach boundary
    else []

/-- The attachment loop followed by the closing boundary of
`write_normal_email` (lines 1069-1095). -/
def email_attachments_and_close (fetch : Nat → Option (List Nat))
    (rfc2231 : Str → Str) (attaches : List AttachRec) (boundary : Str) : Str :=
  joinAll (attaches.map (email_attachment_one fetch rfc2231 boundary)) ++
  ("\n--").toList ++ boundary ++ ("--\n\n").toList

/-- Failure of one attachment, in the sense of the error-handling taxonomy:
an inline attachment with no bytes and an unresolvable fetch id, or an
embedded attachment whose bytes do not parse or parse to an item without a
mail envelope. -/
def attachFails (fetch : Nat → Option (List Nat)) (attach : AttachRec) : Prop :=
  (attach.method = AMethod.normal ∧ attach.data = none ∧
   fetch attach.i_id = none) ∨
  (attach.method = AMethod.embedded ∧
   (attach.parsedItem = none ∨
    ∃ p, attach.parsedItem = some p ∧ p.hasEmail = false))

theorem email_attachment_one_fails {fetch : Nat → Option (List Nat)}
    {rfc2231 : Str → Str} {boundary : Str} {attach : AttachRec}
    (h : attachFails fetch attach) :
    email_attachment_one fetch rfc2231 boundary attach = [] := by
  rcases h with ⟨hm, hd, hf⟩ | ⟨hm, hp⟩
  · unfold email_attachment_one
    rw [hm]
    show (if attach.data ≠ none ∨ attach.i_id ≠ 0 then
      write_inline_attachment fetch rfc2231 attach boundary else []) = []
    split
    · unfold write_inline_attachment
      rw [if_pos ⟨hd, hf⟩]
    · rfl
  · unfold email_attachment_one
    rw [hm]
    show write_embedded_message attach boundary = []
    unfold write_embedded_message
    rcases hp with hp | ⟨p, hp, hmail⟩
    · rw [hp]
    · rw [hp]
      simp [hmail]

/-- C9: a failing attachment — an inline one with no bytes and an
unresolvable fetch id, or an embedded one whose bytes do not parse or whose
parsed item has no mail envelope — contributes nothing to the output (no
boundary, headers or body), and the enclosing message's remaining
attachments and closing boundary are written exactly as if the failing
attachment were absent. -/
theorem c9_attachment_resilience (fetch : Nat → Option (List Nat))
    (rfc2231 : Str → Str) (boundary : Str) :
    (∀ attach : AttachRec, attach.data = none → fetch attach.i_id = none →
      write_inline_attachment fetch rfc2231 attach boundary = []) ∧
    (∀ attach : AttachRec,
      (attach.parsedItem = none ∨
       ∃ p, attach.parsedItem = some p ∧ p.hasEmail = false) →
      write_embedded_message attach boundary = []) ∧
    (∀ (xs ys : List AttachRec) (bad : AttachRec), attachFails fetch bad →
      email_attachments_and_close fetch rfc2231 (xs ++ bad :: ys) boundary =
        email_attachments_and_close fetch rfc2231 (xs ++ ys) boundary) := by
  refine ⟨?_, ?_, ?_⟩
  · intro attach hd hf
    unfold write_inline_attachment
    rw [if_pos ⟨hd, hf⟩]
  · intro attach hp
    unfold write_embedded_message
    rcases hp with hp | ⟨p, hp, hmail⟩
    · rw [hp]
    · rw [hp]
      simp [hmail]
  · intro xs ys bad hbad
    unfold email_attachments_and_close
    rw [List.map_append, List.map_append, List.map_cons]
    rw [email_attachment_one_fails hbad]
    rw [joinAll_append, joinAll_append]
    rw [show joinAll ([] :: List.map
      (email_attachment_one fetch rfc2231 boundary) ys) = joinAll (List.map
      (email_attachment_one fetch rfc2231 boundary) ys) from rfl]

/-- A failing inline attachment for the C9 witness. -/
def c9Bad : AttachRec :=
  { method := AMethod.normal, data := none, i_id := 5, mimetype := none,
    content_id := none, filename1 := none, filename2 := none,
    parsedItem := none }

/-- A resolvable inline attachment for the C9 witness. -/
def c9Good : AttachRec :=
  { method := AMethod.normal, data := some [65], i_id := 0, mimetype := none,
    content_id := none, filename1 := none, filename2 := none,
    parsedItem := none }

/-- Witness for `c9_attachment_resilience`: with a fetch map that resolves
nothing, a data-less attachment writes nothing, and dropping it from a
message's attachment list leaves the emitted attachment stream unchanged. -/
theorem c9_attachment_resilience_witness :
    (c9Bad.data = none ∧ (fun _ : Nat => (none : Option (List Nat))) c9Bad.i_id = none ∧
      attachFails (fun _ => none) c9Bad) ∧
    write_inline_attachment (fun _ => none) (fun s => s) c9Bad (("b").toList) = [] ∧
    email_attachments_and_close (fun _ => none) (fun s => s)
        ([c9Good] ++ c9Bad :: [c9Good]) (("b").toList) =
      email_attachments_and_close (fun _ => none) (fun s => s)
        ([c9Good] ++ [c9Good]) (("b").toList) :=
  ⟨⟨rfl, rfl, Or.inl ⟨rfl, rfl, rfl⟩⟩,
   (c9_attachment_resilience (fun _ => none) (fun s => s) (("b").toList)).1
     c9Bad rfl rfl,
   (c9_attachment_resilience (fun _ => none) (fun s => s) (("b").toList)).2.2
     [c9Good] [c9Good] c9Bad (Or.inl ⟨rfl, rfl, rfl⟩)⟩

/- ------------------------------------------------------------------ -/
/- C4: `my_stristr` (lines 377-399), `header_get_field` (621-626),     -/
/-     `header_end_field` (631-638), `header_strip_field` (641-660)    -/
/- ------------------------------------------------------------------ -/

/-- Embedding of the scanning loop of `my_stristr` (lines 383-395): `y` is
the remaining needle, `x` the remaining haystack, `z` the recorded start of
the current partial match and `i` the current haystack index.  On a mismatch
the needle is reset and the haystack still advances, so the mismatching
character is never compared with the first needle character again (the
scan can miss an occurrence that starts inside an abandoned partial
match). -/
def my_stristr_aux (needle : Str) : Str → Str → Option Nat → Nat → Option Nat
  | [], _, z, _ => z
  | _ :: _, [], _, _ => none
  | yc :: yr, xc :: xr, z, i =>
    if ciEq yc xc then
      my_stristr_aux needle yr xr (if z = none then some i else z) (i + 1)
    else
      my_stristr_aux needle needle xr none (i + 1)

/-- Embedding of `my_stristr` (lines 377-399): the index in `hay` at which
the scan accepted a full case-insensitive match of `needle`, or `none`. -/
def my_stristr (hay needle : Str) : Option Nat :=
  my_stristr_aux needle needle hay none 0

theorem ciStarts_cons_ne_nil {c : Char} {f s : Str}
    (h : ciStarts (c :: f) s = true) : s ≠ [] := by
  cases s with
  | nil => simp [ciStarts] at h
  | cons b t => simp

theorem drop_cons_succ {l : Str} {i : Nat} {c : Char} {r : Str}
    (h : l.drop i = c :: r) : l.drop (i + 1) = r := by
  have h1 : l.drop (i + 1) = (l.drop i).drop 1 := by
    rw [List.drop_drop]
  rw [h1, h]
  rfl

theorem drop_cons_lt {l : Str} {i : Nat} {c : Char} {r : Str}
    (h : l.drop i = c :: r) : i < l.length := by
  by_contra hc
  rw [List.drop_eq_nil_of_le (by omega)] at h
  exact List.noConfusion h

theorem take_succ_of_drop_cons {l : Str} {k : Nat} {c : Char} {r : Str}
    (h : l.drop k = c :: r) : l.take (k + 1) = l.take k ++ [c] := by
  have hk : k < l.length := drop_cons_lt h
  conv_lhs => rw [← List.take_append_drop k l, h]
  rw [List.take_append_eq_append_take]
  rw [List.take_of_length_le (by rw [List.length_take]; omega)]
  rw [List.length_take]
  have : min k l.length = k := by omega
  rw [this]
  have : k + 1 - k = 1 := by omega
  rw [this]
  rfl

theorem my_stristr_aux_sound (hay needle : Str) :
    ∀ (x y : Str) (z : Option Nat) (i j : Nat),
      x = hay.drop i →
      (∀ j0, z = some j0 → ∃ k, i = j0 + k ∧ y = needle.drop k ∧
        ciStarts (needle.take k) (hay.drop j0) = true) →
      (z = none → y = needle) →
      my_stristr_aux needle y x z i = some j →
      ciStarts needle (hay.drop j) = true := by
  intro x
  induction x with
  | nil =>
    intro y z i j hx hz hznone hres
    cases y with
    | nil =>
      rw [my_stristr_aux] at hres
      obtain ⟨k, hik, hdropk, hci⟩ := hz j hres
      have hk : needle.take k = needle := by
        apply List.take_of_length_le
        have := congrArg List.length hdropk
        simp only [List.length_nil, List.length_drop] at this
        omega
      rw [hk] at hci
      exact hci
    | cons yc yr => rw [my_stristr_aux] at hres; exact absurd hres (by simp)
  | cons xc xr ih =>
    intro y z i j hx hz hznone hres
    cases y with
    | nil =>
      rw [my_stristr_aux] at hres
      obtain ⟨k, hik, hdropk, hci⟩ := hz j hres
      have hk : needle.take k = needle := by
        apply List.take_of_length_le
        have := congrArg List.length hdropk
        simp only [List.length_nil, List.length_drop] at this
        omega
      rw [hk] at hci
      exact hci
    | cons yc yr =>
      rw [my_stristr_aux] at hres
      have hxr : xr = hay.drop (i + 1) := (drop_cons_succ hx.symm).symm
      by_cases hc : ciEq yc xc = true
      · rw [if_pos hc] at hres
        refine ih yr _ (i + 1) j hxr ?_ ?_ hres
        · intro j0 hj0
          cases hznew : z with
          | none =>
            rw [hznew, if_pos rfl] at hj0
            injection hj0 with hj0
            have hji : j0 = i := hj0.symm
            subst hji
            have hyn : yc :: yr = needle := hznone hznew
            refine ⟨1, by omega, ?_, ?_⟩
            · rw [← hyn]
              rfl
            · rw [← hyn, ← hx]
              simp [ciStarts, hc]
          | some j1 =>
            rw [hznew, if_neg (by simp)] at hj0
            injection hj0 with hj0
            obtain ⟨k, hik, hdropk, hci⟩ := hz j1 hznew
            rw [← hj0]
            refine ⟨k + 1, by omega, ?_, ?_⟩
            · exact (drop_cons_succ hdropk.symm).symm
            · rw [take_succ_of_drop_cons hdropk.symm]
              rw [ciStarts_append, hci, Bool.true_and]
              rw [List.length_take]
              have hklen : k < needle.length := drop_cons_lt hdropk.symm
              have hmin : min k needle.length = k := by omega
              rw [hmin]
              have hdd : (hay.drop j1).drop k = hay.drop i := by
                rw [List.drop_drop]
                congr 1
                omega
              rw [hdd, ← hx]
              simp [ciStarts, hc]
        · intro hznew
          cases hzv : z with
          | none => rw [hzv, if_pos rfl] at hznew; exact absurd hznew (by simp)
          | some j1 => rw [hzv, if_neg (by simp)] at hznew; exact absurd hznew (by simp)
      · rw [if_neg hc] at hres
        exact ih needle none (i + 1) j hxr (by intro j0 h0; exact absurd h0 (by simp))
          (fun _ => rfl) hres

/-- Soundness of the `my_stristr` scan: a reported position is a genuine
case-insensitive occurrence of the needle. -/
theorem my_stristr_sound {hay needle : Str} {t : Nat}
    (h : my_stristr hay needle = some t) :
    ciStarts needle (hay.drop t) = true :=
  my_stristr_aux_sound hay needle hay needle none 0 t (by rfl)
    (by intro j0 h0; exact absurd h0 (by simp)) (fun _ => rfl) h

/-- Embedding of `header_get_field` (lines 621-626): the `my_stristr`
position, or position 0 when the header begins directly with the field (its
leading newline dropped). -/
def header_get_field (header field : Str) : Option Nat :=
  match my_stristr header field with
  | some t => some t
  | none => if ciStarts (field.drop 1) header then some 0 else none

/-- `strchr(s + start, '\n')`, as an index into `s`. -/
def nlFrom (s : Str) (start : Nat) : Option Nat :=
  (findNL (s.drop start)).map (· + start)

/-- The fold-skipping loop of `header_end_field` (lines 634-636), with a fuel
parameter bounding the iterations; every iteration moves `e` at least one
position right, so `s.length` iterations always suffice. -/
def endFieldGo (s : Str) : Nat → Nat → Option Nat
  | 0, e => some e
  | fuel + 1, e =>
    if e + 1 < s.length ∧ (s.getD (e + 1) 'x' = ' ' ∨ s.getD (e + 1) 'x' = '\t') then
      match nlFrom s (e + 1) with
      | some e2 => endFieldGo s fuel e2
      | none => none
    else some e

/-- Embedding of `header_end_field` (lines 631-638), on the suffix of the
header starting at the field: index of the newline terminating the field,
skipping folded continuation lines, or `none` when the field runs to the end
of the string. -/
def header_end_field (s : Str) : Option Nat :=
  match nlFrom s 1 with
  | some e => endFieldGo s s.length e
  | none => none

theorem nlFrom_ge {s : Str} {start v : Nat} (h : nlFrom s start = some v) :
    start ≤ v := by
  unfold nlFrom at h
  cases hf : findNL (s.drop start) with
  | none => rw [hf] at h; exact absurd h (by simp)
  | some i =>
    rw [hf] at h
    simp only [Option.map_some'] at h
    injection h with h
    omega

theorem endFieldGo_ge {s : Str} :
    ∀ (fuel e r : Nat), endFieldGo s fuel e = some r → e ≤ r := by
  intro fuel
  induction fuel with
  | zero =>
    intro e r h
    rw [endFieldGo] at h
    injection h with h
    omega
  | succ n ih =>
    intro e r h
    rw [endFieldGo] at h
    split at h
    · cases hn : nlFrom s (e + 1) with
      | none => rw [hn] at h; exact absurd h (by simp)
      | some e2 =>
        rw [hn] at h
        have h1 := nlFrom_ge hn
        have h2 := ih e2 r h
        omega
    · injection h with h
      omega

theorem header_end_field_ge_one {s : Str} {r : Nat}
    (h : header_end_field s = some r) : 1 ≤ r := by
  unfold header_end_field at h
  cases hn : nlFrom s 1 with
  | none => rw [hn] at h; exact absurd h (by simp)
  | some e =>
    rw [hn] at h
    have h1 := nlFrom_ge hn
    have h2 := endFieldGo_ge _ _ _ h
    omega

/-- One pass of the `while` loop of `header_strip_field` (lines 644-658):
locate the field, then splice out the text from the field start to the end of
its folded span (keeping the `\n` at the end unless the field starts the
header, in which case `e++` drops it too); when the field runs to the end of
the string, truncate there.  `none` means the loop guard failed. -/
def stripOnce (h f : Str) : Option Str :=
  match header_get_field h f with
  | none => none
  | some t =>
    match header_end_field (h.drop t) with
    | some e => some (h.take t ++ (h.drop t).drop (if t = 0 then e + 1 else e))
    | none => some (h.take t)

/-- The `while` loop of `header_strip_field`, with a fuel parameter bounding
the iterations; every splice removes at least one character, so `h.length`
iterations always suffice. -/
def stripFuel : Nat → Str → Str → Str
  | 0, h, _ => h
  | fuel + 1, h, f =>
    match stripOnce h f with
    | none => h
    | some h2 => stripFuel fuel h2 f

/-- Embedding of `header_strip_field` (lines 641-660). -/
def header_strip_field (h f : Str) : Str := stripFuel h.length h f

theorem header_get_field_lt {h f : Str} {t : Nat} (hf : 2 ≤ f.length)
    (hget : header_get_field h f = some t) : t < h.length := by
  unfold header_get_field at hget
  cases hs : my_stristr h f with
  | some t2 =>
    rw [hs] at hget
    injection hget with hget
    subst hget
    have hci := my_stristr_sound hs
    cases f with
    | nil => simp at hf
    | cons c f2 =>
      have hne := ciStarts_cons_ne_nil hci
      by_contra hc
      rw [List.drop_eq_nil_of_le (by omega)] at hne
      exact hne rfl
  | none =>
    rw [hs] at hget
    have hget2 : (if ciStarts (f.drop 1) h = true then some 0 else none)
        = some t := hget
    by_cases hstart : ciStarts (f.drop 1) h = true
    · rw [if_pos hstart] at hget2
      injection hget2 with hget2
      have ht0 : t = 0 := hget2.symm
      subst ht0
      cases hd : f.drop 1 with
      | nil =>
        have := congrArg List.length hd
        simp only [List.length_drop, List.length_nil] at this
        omega
      | cons c f2 =>
        rw [hd] at hstart
        have hne := ciStarts_cons_ne_nil hstart
        cases h with
        | nil => exact absurd rfl hne
        | cons a h2 => simp
    · rw [if_neg hstart] at hget2
      exact absurd hget2 (by simp)

theorem stripOnce_shrinks {h f h2 : Str} (hf : 2 ≤ f.length)
    (hs : stripOnce h f = some h2) : h2.length < h.length := by
  unfold stripOnce at hs
  cases hget : header_get_field h f with
  | none => rw [hget] at hs; exact absurd hs (by simp)
  | some t =>
    rw [hget] at hs
    have ht := header_get_field_lt hf hget
    have hs2 : (match header_end_field (h.drop t) with
        | some e => some (h.take t ++ (h.drop t).drop (if t = 0 then e + 1 else e))
        | none => some (h.take t)) = some h2 := hs
    cases he : header_end_field (h.drop t) with
    | none =>
      rw [he] at hs2
      injection hs2 with hs2
      subst hs2
      rw [List.length_take]
      omega
    | some e =>
      rw [he] at hs2
      injection hs2 with hs2
      subst hs2
      have he1 := header_end_field_ge_one he
      rw [List.length_append, List.length_take, List.length_drop,
        List.length_drop]
      split <;> omega

theorem header_get_field_nil {f : Str} (hf : 2 ≤ f.length) :
    header_get_field [] f = none := by
  cases f with
  | nil => simp at hf
  | cons c f2 =>
    unfold header_get_field my_stristr
    rw [show my_stristr_aux (c :: f2) (c :: f2) [] none 0 = none from rfl]
    cases hd : (c :: f2).drop 1 with
    | nil =>
      have := congrArg List.length hd
      simp only [List.length_drop, List.length_cons, List.length_nil] at this hf
      omega
    | cons d f3 =>
      show (if ciStarts (d :: f3) [] = true then some 0 else (none : Option Nat))
        = none
      rw [show ciStarts (d :: f3) ([] : Str) = false from rfl]
      simp

theorem stripFuel_no_trace {f : Str} (hf : 2 ≤ f.length) :
    ∀ (fuel : Nat) (h : Str), h.length ≤ fuel →
      header_get_field (stripFuel fuel h f) f = none := by
  intro fuel
  induction fuel with
  | zero =>
    intro h hlen
    have : h = [] := List.length_eq_zero.mp (Nat.le_zero.mp hlen)
    subst this
    rw [stripFuel]
    exact header_get_field_nil hf
  | succ n ih =>
    intro h hlen
    cases hs : stripOnce h f with
    | none =>
      have hrw : stripFuel (n + 1) h f = h := by rw [stripFuel, hs]
      rw [hrw]
      unfold stripOnce at hs
      cases hget : header_get_field h f with
      | none => rfl
      | some t =>
        rw [hget] at hs
        have hs2 : (match header_end_field (h.drop t) with
            | some e => some (h.take t ++ (h.drop t).drop (if t = 0 then e + 1 else e))
            | none => some (h.take t)) = none := hs
        cases he : header_end_field (h.drop t) <;> rw [he] at hs2 <;>
          exact absurd hs2 (by simp)
    | some h2 =>
      have hrw : stripFuel (n + 1) h f = stripFuel n h2 f := by rw [stripFuel, hs]
      rw [hrw]
      have := stripOnce_shrinks hf hs
      exact ih h2 (by omega)

/-- Whether the field (given with its leading newline, as the C call sites
pass it) genuinely occurs in the header block: case-insensitively at some
position preceded by a newline, or at the very start of the block without
the newline.  This is the claim's reading of "occurrence of the named
field". -/
def fieldOccurs (h f : Str) : Bool :=
  (List.range (h.length + 1)).any (fun i => ciStarts f (h.drop i)) ||
  ciStarts (f.drop 1) h

theorem header_get_field_none_of_absent {h f : Str}
    (habs : fieldOccurs h f = false) : header_get_field h f = none := by
  unfold fieldOccurs at habs
  rw [Bool.or_eq_false_iff] at habs
  obtain ⟨h1, h2⟩ := habs
  unfold header_get_field
  cases hs : my_stristr h f with
  | some t =>
    exfalso
    have hci := my_stristr_sound hs
    have hfalse : (List.range (h.length + 1)).any
        (fun i => ciStarts f (h.drop i)) = true := by
      rw [List.any_eq_true]
      cases f with
      | nil => exact ⟨0, List.mem_range.mpr (by omega), rfl⟩
      | cons c f2 =>
        have hne := ciStarts_cons_ne_nil hci
        have hlt : t < h.length + 1 := by
          by_contra hc
          rw [List.drop_eq_nil_of_le (by omega)] at hne
          exact hne rfl
        exact ⟨t, List.mem_range.mpr hlt, hci⟩
    rw [h1] at hfalse
    exact Bool.noConfusion hfalse
  | none =>
    rw [h2]
    simp

/-- C4 counterexample: `header_strip_field` does not remove every occurrence
of the named field.  In the block `\nX\nX-MimeOLE: gone\n` the field
`\nX-MimeOLE:` genuinely occurs (at position 2), but the scan abandons a
partial match at the first `\nX` and never reconsiders the character it
mismatched on, so the strip is a no-op and the field remains. -/
theorem c4_counterexample :
    fieldOccurs (("\nX\nX-MimeOLE: gone\n").toList) (("\nX-MimeOLE:").toList)
        = true ∧
      header_strip_field (("\nX\nX-MimeOLE: gone\n").toList)
          (("\nX-MimeOLE:").toList) =
        (("\nX\nX-MimeOLE: gone\n").toList) := by
  exact ⟨by decide, by decide⟩

/-- C4 (amended): `header_strip_field` removes every occurrence that its
first-match scan finds, repeating until the scan reports no occurrence — so
afterwards `header_get_field` finds no trace of the field — but the scan can
miss an occurrence that starts inside an abandoned partial match, and such an
occurrence survives.  When the field does not occur at all the function is a
no-op, and more generally it is a no-op whenever the scan finds nothing.
Stripping a folded multi-line field removes all its continuation lines and
leaves exactly one blank line between the remaining headers and the body
(concrete folded example). -/
theorem c4_header_strip_field (h f : Str) (hf : 2 ≤ f.length) :
    header_get_field (header_strip_field h f) f = none ∧
    (header_get_field h f = none → header_strip_field h f = h) ∧
    (fieldOccurs h f = false → header_strip_field h f = h) ∧
    header_strip_field (("From: a\nX-MimeOLE: v1\n\tv2\n\nBody").toList)
        (("\nX-MimeOLE:").toList) = (("From: a\n\nBody").toList) := by
  refine ⟨?_, ?_, ?_, by decide⟩
  · exact stripFuel_no_trace hf h.length h (Nat.le_refl _)
  · intro hget
    unfold header_strip_field
    cases hlen : h.length with
    | zero => rw [stripFuel]
    | succ n =>
      rw [stripFuel]
      rw [show stripOnce h f = none from by unfold stripOnce; rw [hget]]
  · intro habs
    have hget := header_get_field_none_of_absent habs
    unfold header_strip_field
    cases hlen : h.length with
    | zero => rw [stripFuel]
    | succ n =>
      rw [stripFuel]
      rw [show stripOnce h f = none from by unfold stripOnce; rw [hget]]

/-- Witness for `c4_header_strip_field` at a concrete header and field. -/
theorem c4_header_strip_field_witness :
    2 ≤ (("\nX-From_:").toList : Str).length ∧
      header_get_field
        (header_strip_field (("To: b\nX-From_: q\n").toList)
          (("\nX-From_:").toList)) (("\nX-From_:").toList) = none :=
  ⟨by decide,
   (c4_header_strip_field (("To: b\nX-From_: q\n").toList)
     (("\nX-From_:").toList) (by decide)).1⟩

/- ------------------------------------------------------------------ -/
/- C1: the header section of `write_normal_email` (lines 786-999),     -/
/-     `header_has_field` (579-587), `header_get_subfield` (590-619)   -/
/- ------------------------------------------------------------------ -/

/-- Embedding of `header_has_field` (lines 579-587): the field (given with
its leading newline) is found by `my_stristr`, or the header begins directly
with the field without the newline. -/
def header_has_field (h f : Str) : Bool :=
  (my_stristr h f).isSome || ciStarts (f.drop 1) h

/-- `strchr(s + start, c)`, as an index into `s`. -/
def chFrom (s : Str) (start : Nat) (c : Char) : Option Nat :=
  ((s.drop start).findIdx? (· = c)).map (· + start)

/-- Embedding of `header_get_subfield` (lines 590-619), applied to the
header `h` and the `header_get_field` position `t` of the field: within the
field's span, find `search` (`" key="`), then extract either a quoted value
(to the closing quote) or an unquoted value (to `;` or newline, whichever
comes first), clipped to the field's end and truncated by `snprintf` to
`size - 1` bytes; when anything is missing the caller's default is kept. -/
def header_get_subfield (h : Str) (t : Option Nat) (search : Str)
    (size : Nat) (deflt : Str) : Str :=
  match t with
  | none => deflt
  | some t0 =>
    match header_end_field (h.drop (t0 + 1)),
        my_stristr (h.drop (t0 + 1)) search with
    | some n, some s =>
      if s < n then
        subExtract (h.drop (t0 + 1)) n (s + search.length) size deflt
      else deflt
    | _, _ => deflt
where
  /-- Value extraction from position `s1` of the field text `fl`, bounded by
  the field end `n`. -/
  subExtract (fl : Str) (n s1 : Nat) (size : Nat) (deflt : Str) : Str :=
    if fl.getD s1 'x' = '"' then
      let e2 := match chFrom fl (s1 + 1) '"' with
        | none => n
        | some e0 => if e0 > n then n else e0
      ((fl.drop (s1 + 1)).take (e2 - (s1 + 1))).take (size - 1)
    else
      let e1 := match chFrom fl s1 ';', chFrom fl s1 '\n' with
        | some e0, some f0 => some (if f0 < e0 then f0 else e0)
        | some e0, none => some e0
        | none, _ => none
      let e2 := match e1 with
        | none => n
        | some e0 => if e0 > n then n else e0
      ((fl.drop s1).take (e2 - s1)).take (size - 1)

/-- A mail item, restricted to the fields the header section of
`write_normal_email` reads.  Optional strings are the values of the
corresponding `pst_string`/formatted fields, already put through the external
utf8/RFC2047/strftime collaborators; `none` models a NULL pointer (for
`sentDate`, a zero `sent_date`). -/
structure EmailItem where
  header : Option Str
  subject : Option Str
  senderName : Option Str
  senderAddr : Option Str
  sentto : Option Str
  cc : Option Str
  bcc : Option Str
  sentDate : Option Str
  messageid : Option Str
  isRead : Bool
  isReport : Bool

/-- The header-source choice of lines 805-807: the item's own header blob if
it passes `valid_headers`, else the carried extra MIME headers if they do,
else none. -/
def chooseHeaders (it : EmailItem) (extra : Option Str) : Option Str :=
  if valid_headers it.header then it.header
  else if valid_headers extra then extra
  else none

/-- Index of the first `\n\n` (`strstr(headers, "\n\n")`, line 847). -/
def findPair : Str → Option Nat
  | [] => none
  | a :: rest =>
    match rest with
    | [] => none
    | b :: _ =>
      if a = '\n' ∧ b = '\n' then some 0 else (findPair rest).map (· + 1)

/-- The truncation of lines 847-851: cut the block just after the first
newline of the first blank line. -/
def truncHeaders (s : Str) : Str :=
  match findPair s with
  | some i => s.take (i + 1)
  | none => s

/-- The chosen header block after `removeCR` and truncation (lines 845-851),
the text all header analysis of lines 858-896 runs on. -/
def processedHeaders (it : EmailItem) (extra : Option Str) : Option Str :=
  (chooseHeaders it extra).map (fun h => truncHeaders (removeCR h))

/-- One of the six presence flags of lines 859-864. -/
def flagOf (it : EmailItem) (extra : Option Str) (f : Str) : Bool :=
  match processedHeaders it extra with
  | none => false
  | some h => header_has_field h f

/-- The report type of the Content-Type line: the default
`delivery-status` (line 812), overridden by the `report-type` subfield of the
recovered Content-Type field (line 869). -/
def reportType (it : EmailItem) (extra : Option Str) : Str :=
  match processedHeaders it extra with
  | none => ("delivery-status").toList
  | some h =>
    header_get_subfield h (header_get_field h (("\nContent-Type:").toList))
      ((" report-type=").toList) 60 (("delivery-status").toList)

/-- The sender derivation of lines 816-825 and 872-887: the item's sender
address when it contains `@` (truncated by `strncpy` to the 59-byte buffer),
else the text between `<` and `>` on the first line of the recovered From
field, else `MAILER-DAEMON`. -/
def deriveSender (it : EmailItem) (extra : Option Str) : Str :=
  let known := match it.senderAddr with
    | some a => a.contains '@'
    | none => false
  let base := match it.senderAddr with
    | some a => if a.contains '@' then a.take 59 else ("MAILER-DAEMON").toList
    | none => ("MAILER-DAEMON").toList
  if known = true then base
  else
    match processedHeaders it extra with
    | none => base
    | some h =>
      match header_get_field h (("\nFrom:").toList) with
      | none => base
      | some t =>
        match chFrom (h.drop (t + 1)) 0 '\n', chFrom (h.drop (t + 1)) 0 '<',
            chFrom (h.drop (t + 1)) 0 '>' with
        | some n, some s, some e =>
          if s < e ∧ e < n then
            (((h.drop (t + 1)).drop (s + 1)).take (e - s - 1)).take 59
          else base
        | _, _, _ => base

/-- The seven `header_strip_field` calls of lines 890-896. -/
def strippedHeaders (it : EmailItem) (extra : Option Str) : Option Str :=
  (processedHeaders it extra).map (fun h =>
    header_strip_field (header_strip_field (header_strip_field
      (header_strip_field (header_strip_field (header_strip_field
        (header_strip_field h (("\nMicrosoft Mail Internet Headers").toList))
        (("\nMIME-Version:").toList)) (("\nContent-Type:").toList))
        (("\nContent-Transfer-Encoding:").toList))
        (("\nContent-class:").toList)) (("\nX-MimeOLE:").toList))
      (("\nX-From_:").toList))

/-- The recovered header text as printed by lines 907-926: the stripped
block, with a newline appended when it does not already end in one; an
absent or empty block prints nothing. -/
def printedBlock (it : EmailItem) (extra : Option Str) : Str :=
  match strippedHeaders it extra with
  | none => []
  | some h =>
    if h = [] then []
    else if h.getLast? == some '\n' then h else h ++ [ '\n' ]

/-- The text after `From: ` on the synthesized From line (lines 935-942):
`name <sender>` or `<sender>`. -/
def fromLineTail (it : EmailItem) (extra : Option Str) : Str :=
  match it.senderName with
  | some nm => nm ++ (" <").toList ++ deriveSender it extra ++ (">").toList
  | none => ("<").toList ++ deriveSender it extra ++ (">").toList

/-- The condition of the forensic sender header (lines 979-983): a sender
address with no `@`, different from `.` and non-empty. -/
def forensicSenderCond (it : EmailItem) : Bool :=
  match it.senderAddr with
  | some a => !a.contains '@' && !(a == (".").toList) && !a.isEmpty
  | none => false

/-- The first Content-Type line of lines 992-998. -/
def ctLine1 (it : EmailItem) (extra : Option Str) : Str :=
  if it.isReport = true then
    ("Content-Type: multipart/report; report-type=").toList ++
      reportType it extra ++ (";").toList
  else ("Content-Type: multipart/mixed;").toList

/-- One optionally emitted line followed by the rest of the output. -/
def chunkC (c : Bool) (l : Str) (rest : Str) : Str :=
  (if c = true then l ++ [ '\n' ] else []) ++ rest

/-- Lines 929-999 of `write_normal_email`: everything the header section
writes after the recovered block — the read-status line, the six synthesized
canonical headers, the two forensic headers, `MIME-Version`, the two
Content-Type lines and the blank line ending the headers.  `bound` is the
random MIME boundary string of line 839. -/
def tailSection (it : EmailItem) (extra : Option Str) (bound : Str) : Str :=
  chunkC it.isRead (("Status: RO").toList) (
  chunkC (!flagOf it extra (("\nFrom:").toList))
    (("From: ").toList ++ fromLineTail it extra) (
  chunkC (!flagOf it extra (("\nSubject:").toList))
    (("Subject: ").toList ++ it.subject.getD []) (
  chunkC (!flagOf it extra (("\nTo:").toList) && it.sentto.isSome)
    (("To: ").toList ++ it.sentto.getD []) (
  chunkC (!flagOf it extra (("\nCC:").toList) && it.cc.isSome)
    (("Cc: ").toList ++ it.cc.getD []) (
  chunkC (!flagOf it extra (("\nDate:").toList) && it.sentDate.isSome)
    (("Date: ").toList ++ it.sentDate.getD []) (
  chunkC (!flagOf it extra (("\nMessage-Id:").toList) && it.messageid.isSome)
    (("Message-Id: ").toList ++ it.messageid.getD []) (
  chunkC (forensicSenderCond it)
    (("X-libpst-forensic-sender: ").toList ++ (it.senderAddr.getD [])) (
  chunkC it.bcc.isSome
    (("X-libpst-forensic-bcc: ").toList ++ it.bcc.getD []) (
  chunkC true (("MIME-Version: 1.0").toList) (
  chunkC true (ctLine1 it extra) (
  chunkC true ([ '\t' ] ++ ("boundary=\"").toList ++ bound ++ ("\"").toList) (
  chunkC true [] []))))))))))))

/-- The whole header section of `write_normal_email` (lines 786-999): the
printed recovered block followed by the tail. -/
def write_normal_email_headers (it : EmailItem) (extra : Option Str)
    (bound : Str) : Str :=
  printedBlock it extra ++ tailSection it extra bound

/-- Count, case-insensitively, the lines of `s` beginning with `f` (`b` is
true at the start of a line). -/
def countAux (f : Str) : Str → Bool → Nat
  | [], _ => 0
  | c :: rest, atStart =>
    (if atStart = true ∧ ciStarts f (c :: rest) = true then 1 else 0) +
    countAux f rest (c == '\n')

/-- Number of lines of `s` that start, case-insensitively, with `f`. -/
def countLinesCI (f s : Str) : Nat := countAux f s true

theorem ciStarts_ends_nl {f : Str} (hf : '\n' ∉ f) :
    ∀ (s t : Str), s ≠ [] → s.getLast? = some '\n' →
      ciStarts f (s ++ t) = ciStarts f s := by
  induction f with
  | nil => intro s t _ _; rfl
  | cons a f ih =>
    intro s t hne hlast
    simp only [List.mem_cons, not_or] at hf
    have ha : a ≠ '\n' := fun he => hf.1 he.symm
    cases s with
    | nil => exact absurd rfl hne
    | cons c s2 =>
      cases s2 with
      | nil =>
        have hc : c = '\n' := by
          simp only [List.getLast?_singleton, Option.some.injEq] at hlast
          exact hlast
        subst hc
        simp only [List.cons_append, List.nil_append, ciStarts_cons_cons,
          ciEq_nl_right ha, Bool.false_and]
      | cons d s3 =>
        simp only [List.cons_append, ciStarts_cons_cons]
        rw [List.getLast?_cons_cons] at hlast
        rw [show d :: (s3 ++ t) = (d :: s3) ++ t from rfl]
        rw [ih hf.2 (d :: s3) t (by simp) hlast]

theorem ciStarts_nl_false {f : Str} (hf : '\n' ∉ f) (hfne : f ≠ []) (t : Str) :
    ciStarts f ('\n' :: t) = false := by
  cases f with
  | nil => exact absurd rfl hfne
  | cons a f2 =>
    have ha : a ≠ '\n' := fun he => hf (by rw [he]; simp)
    rw [ciStarts_cons_cons, ciEq_nl_right ha, Bool.false_and]

theorem countAux_after {f : Str} (hf : '\n' ∉ f) (hfne : f ≠ []) :
    ∀ {l : Str}, '\n' ∉ l → ∀ rest, countAux f (l ++ '\n' :: rest) false =
      countAux f rest true := by
  intro l
  induction l with
  | nil =>
    intro _ rest
    rw [show ([] : Str) ++ '\n' :: rest = '\n' :: rest from rfl]
    rw [countAux]
    rw [show (('\n' : Char) == '\n') = true from rfl]
    simp
  | cons c l2 ih =>
    intro hl rest
    simp only [List.mem_cons, not_or] at hl
    have hc : c ≠ '\n' := fun he => hl.1 he.symm
    rw [show (c :: l2) ++ '\n' :: rest = c :: (l2 ++ '\n' :: rest) from rfl]
    rw [countAux]
    rw [show (c == '\n') = false from by
      cases hb : (c == '\n') with
      | true => exact absurd (beq_iff_eq.mp hb) hc
      | false => rfl]
    rw [ih hl.2 rest]
    simp

theorem countAux_line {f : Str} (hf : '\n' ∉ f) (hfne : f ≠ []) {l : Str}
    (hl : '\n' ∉ l) (rest : Str) :
    countAux f ((l ++ [ '\n' ]) ++ rest) true =
      (if ciStarts f (l ++ [ '\n' ]) = true then 1 else 0) +
        countAux f rest true := by
  cases l with
  | nil =>
    rw [show ((([] : Str) ++ [ '\n' ]) ++ rest) = '\n' :: rest from rfl]
    rw [countAux]
    rw [show (('\n' : Char) == '\n') = true from rfl]
    rw [ciStarts_nl_false hf hfne rest]
    rw [show (([] : Str) ++ [ '\n' ]) = [ '\n' ] from rfl]
    rw [show ciStarts f [ '\n' ] = ciStarts f ('\n' :: ([] : Str)) from rfl]
    rw [ciStarts_nl_false hf hfne ([] : Str)]
    simp
  | cons c l2 =>
    have hc : c ≠ '\n' := fun he => hl (by rw [he]; simp)
    have hl2 : '\n' ∉ l2 := fun hm => hl (List.mem_cons_of_mem _ hm)
    rw [show (((c :: l2) ++ [ '\n' ]) ++ rest) = c :: (l2 ++ '\n' :: rest)
      from by simp]
    rw [countAux]
    rw [show (c == '\n') = false from by
      cases hb : (c == '\n') with
      | true => exact absurd (beq_iff_eq.mp hb) hc
      | false => rfl]
    rw [countAux_after hf hfne hl2 rest]
    have hci : ciStarts f (c :: (l2 ++ '\n' :: rest)) =
        ciStarts f ((c :: l2) ++ [ '\n' ]) := by
      rw [show c :: (l2 ++ '\n' :: rest) = ((c :: l2) ++ [ '\n' ]) ++ rest
        from by simp]
      exact ciStarts_ends_nl hf _ _ (by simp) (by
        rw [List.getLast?_append]
        rfl)
    rw [hci]
    simp

theorem countAux_chunkC {f : Str} (hf : '\n' ∉ f) (hfne : f ≠ [])
    {l : Str} (hl : '\n' ∉ l) (c : Bool) (rest : Str) :
    countAux f (chunkC c l rest) true =
      (if c = true ∧ ciStarts f (l ++ [ '\n' ]) = true then 1 else 0) +
        countAux f rest true := by
  unfold chunkC
  cases c with
  | true =>
    simp only [if_true, true_and]
    exact countAux_line hf hfne hl rest
  | false =>
    simp only [Bool.false_eq_true, if_false, false_and, List.nil_append,
      Nat.zero_add]

theorem nl_not_append {a b : Str} (ha : '\n' ∉ a) (hb : '\n' ∉ b) :
    '\n' ∉ a ++ b := by
  intro hm
  rcases List.mem_append.mp hm with h | h
  · exact ha h
  · exact hb h

theorem countAux_append_nl {f : Str} (hf : '\n' ∉ f) (hfne : f ≠ []) :
    ∀ (s : Str), s.getLast? = some '\n' → ∀ (t : Str) (b : Bool),
      countAux f (s ++ t) b = countAux f s b + countAux f t true := by
  intro s
  induction s with
  | nil => intro hlast; simp at hlast
  | cons c s2 ih =>
    intro hlast t b
    cases s2 with
    | nil =>
      have hc : c = '\n' := by simpa using hlast
      subst hc
      rw [show ([ '\n' ] : Str) ++ t = '\n' :: t from rfl]
      rw [countAux]
      rw [show (('\n' : Char) == '\n') = true from rfl]
      rw [ciStarts_nl_false hf hfne t]
      rw [show countAux f [ '\n' ] b =
        ((if b = true ∧ ciStarts f [ '\n' ] = true then 1 else 0) +
          countAux f [] true) from rfl]
      rw [show ciStarts f [ '\n' ] = ciStarts f ('\n' :: ([] : Str)) from rfl]
      rw [ciStarts_nl_false hf hfne ([] : Str)]
      rw [show countAux f ([] : Str) true = 0 from rfl]
      simp
    | cons d s3 =>
      rw [show (c :: d :: s3) ++ t = c :: ((d :: s3) ++ t) from rfl]
      rw [countAux]
      rw [show countAux f (c :: d :: s3) b =
        ((if b = true ∧ ciStarts f (c :: d :: s3) = true then 1 else 0) +
          countAux f (d :: s3) (c == '\n')) from rfl]
      rw [List.getLast?_cons_cons] at hlast
      rw [ih hlast t (c == '\n')]
      have hci : ciStarts f (c :: ((d :: s3) ++ t)) =
          ciStarts f (c :: d :: s3) := by
        rw [show c :: ((d :: s3) ++ t) = (c :: d :: s3) ++ t from rfl]
        exact ciStarts_ends_nl hf _ _ (by simp)
          (by rw [List.getLast?_cons_cons]; exact hlast)
      rw [hci]
      omega

theorem printedBlock_cases (it : EmailItem) (extra : Option Str) :
    printedBlock it extra = [] ∨
      (printedBlock it extra).getLast? = some '\n' := by
  cases hsh : strippedHeaders it extra with
  | none =>
    left
    unfold printedBlock
    rw [hsh]
  | some h =>
    have hpb : printedBlock it extra =
        (if h = [] then []
         else if (h.getLast? == some '\n') = true then h else h ++ [ '\n' ]) := by
      unfold printedBlock
      rw [hsh]
    rw [hpb]
    by_cases hnil : h = []
    · rw [if_pos hnil]
      exact Or.inl rfl
    · rw [if_neg hnil]
      by_cases hlast : (h.getLast? == some '\n') = true
      · rw [if_pos hlast]
        exact Or.inr (beq_iff_eq.mp hlast)
      · rw [if_neg hlast]
        refine Or.inr ?_
        rw [List.getLast?_append]
        rfl

theorem count_headers_split {f : Str} (hf : '\n' ∉ f) (hfne : f ≠ [])
    (it : EmailItem) (extra : Option Str) (bound : Str) :
    countLinesCI f (write_normal_email_headers it extra bound) =
      countLinesCI f (printedBlock it extra) +
        countLinesCI f (tailSection it extra bound) := by
  unfold write_normal_email_headers countLinesCI
  rcases printedBlock_cases it extra with hpb | hpb
  · rw [hpb]
    rw [show ([] : Str) ++ tailSection it extra bound =
      tailSection it extra bound from rfl]
    rw [show countAux f ([] : Str) true = 0 from rfl]
    omega
  · exact countAux_append_nl hf hfne _ hpb _ true


theorem countTail_from (it : EmailItem) (extra : Option Str) (bound : Str)
    (hn1 : '\n' ∉ fromLineTail it extra) (hn2 : '\n' ∉ it.subject.getD [])
    (hn3 : '\n' ∉ it.sentto.getD []) (hn4 : '\n' ∉ it.cc.getD [])
    (hn5 : '\n' ∉ it.sentDate.getD []) (hn6 : '\n' ∉ it.messageid.getD [])
    (hn7 : '\n' ∉ it.senderAddr.getD []) (hn8 : '\n' ∉ it.bcc.getD [])
    (hn9 : '\n' ∉ reportType it extra) (hn10 : '\n' ∉ bound) :
    countLinesCI (("From:").toList) (tailSection it extra bound) =
      (if (!flagOf it extra (("\nFrom:").toList)) = true then 1 else 0) := by
  have hff : '\n' ∉ (("From:").toList : Str) := by decide
  have hffne : (("From:").toList : Str) ≠ [] := by decide
  have hc1 : '\n' ∉ ((("Status: RO").toList : Str)) := by decide
  have hc2 : '\n' ∉ (("From: ").toList ++ fromLineTail it extra) := nl_not_append (by decide) hn1
  have hc3 : '\n' ∉ (("Subject: ").toList ++ it.subject.getD []) := nl_not_append (by decide) hn2
  have hc4 : '\n' ∉ (("To: ").toList ++ it.sentto.getD []) := nl_not_append (by decide) hn3
  have hc5 : '\n' ∉ (("Cc: ").toList ++ it.cc.getD []) := nl_not_append (by decide) hn4
  have hc6 : '\n' ∉ (("Date: ").toList ++ it.sentDate.getD []) := nl_not_append (by decide) hn5
  have hc7 : '\n' ∉ (("Message-Id: ").toList ++ it.messageid.getD []) := nl_not_append (by decide) hn6
  have hc8 : '\n' ∉ (("X-libpst-forensic-sender: ").toList ++ (it.senderAddr.getD [])) := nl_not_append (by decide) hn7
  have hc9 : '\n' ∉ (("X-libpst-forensic-bcc: ").toList ++ it.bcc.getD []) := nl_not_append (by decide) hn8
  have hc10 : '\n' ∉ ((("MIME-Version: 1.0").toList : Str)) := by decide
  have hc11 : '\n' ∉ (ctLine1 it extra) := by
    unfold ctLine1
    split
    · exact nl_not_append (nl_not_append (by decide) hn9) (by decide)
    · decide
  have hc12 : '\n' ∉ ([ '\t' ] ++ ("boundary=\"").toList ++ bound ++ ("\"").toList) := nl_not_append (nl_not_append (by decide) hn10) (by decide)
  have hc13 : '\n' ∉ (([] : Str)) := by decide
  unfold countLinesCI tailSection
  rw [countAux_chunkC hff hffne hc1,
    countAux_chunkC hff hffne hc2,
    countAux_chunkC hff hffne hc3,
    countAux_chunkC hff hffne hc4,
    countAux_chunkC hff hffne hc5,
    countAux_chunkC hff hffne hc6,
    countAux_chunkC hff hffne hc7,
    countAux_chunkC hff hffne hc8,
    countAux_chunkC hff hffne hc9,
    countAux_chunkC hff hffne hc10,
    countAux_chunkC hff hffne hc11,
    countAux_chunkC hff hffne hc12,
    countAux_chunkC hff hffne hc13]
  rw [show ciStarts (("From:").toList) (((("Status: RO").toList : Str)) ++ [ '\n' ]) = false from rfl]
  rw [show ciStarts (("From:").toList) ((("From: ").toList ++ fromLineTail it extra) ++ [ '\n' ]) = true from rfl]
  rw [show ciStarts (("From:").toList) ((("Subject: ").toList ++ it.subject.getD []) ++ [ '\n' ]) = false from rfl]
  rw [show ciStarts (("From:").toList) ((("To: ").toList ++ it.sentto.getD []) ++ [ '\n' ]) = false from rfl]
  rw [show ciStarts (("From:").toList) ((("Cc: ").toList ++ it.cc.getD []) ++ [ '\n' ]) = false from rfl]
  rw [show ciStarts (("From:").toList) ((("Date: ").toList ++ it.sentDate.getD []) ++ [ '\n' ]) = false from rfl]
  rw [show ciStarts (("From:").toList) ((("Message-Id: ").toList ++ it.messageid.getD []) ++ [ '\n' ]) = false from rfl]
  rw [show ciStarts (("From:").toList) ((("X-libpst-forensic-sender: ").toList ++ (it.senderAddr.getD [])) ++ [ '\n' ]) = false from rfl]
  rw [show ciStarts (("From:").toList) ((("X-libpst-forensic-bcc: ").toList ++ it.bcc.getD []) ++ [ '\n' ]) = false from rfl]
  rw [show ciStarts (("From:").toList) (((("MIME-Version: 1.0").toList : Str)) ++ [ '\n' ]) = false from rfl]
  rw [show ciStarts (("From:").toList) (ctLine1 it extra ++ [ '\n' ]) = false from by
    unfold ctLine1
    split <;> rfl]
  rw [show ciStarts (("From:").toList) (([ '\t' ] ++ ("boundary=\"").toList ++ bound ++ ("\"").toList) ++ [ '\n' ]) = false from rfl]
  rw [show ciStarts (("From:").toList) ((([] : Str)) ++ [ '\n' ]) = false from rfl]
  rw [show countAux (("From:").toList) ([] : Str) true = 0 from rfl]
  simp


theorem countTail_subject (it : EmailItem) (extra : Option Str) (bound : Str)
    (hn1 : '\n' ∉ fromLineTail it extra) (hn2 : '\n' ∉ it.subject.getD [])
    (hn3 : '\n' ∉ it.sentto.getD []) (hn4 : '\n' ∉ it.cc.getD [])
    (hn5 : '\n' ∉ it.sentDate.getD []) (hn6 : '\n' ∉ it.messageid.getD [])
    (hn7 : '\n' ∉ it.senderAddr.getD []) (hn8 : '\n' ∉ it.bcc.getD [])
    (hn9 : '\n' ∉ reportType it extra) (hn10 : '\n' ∉ bound) :
    countLinesCI (("Subject:").toList) (tailSection it extra bound) =
      (if (!flagOf it extra (("\nSubject:").toList)) = true then 1 else 0) := by
  have hff : '\n' ∉ (("Subject:").toList : Str) := by decide
  have hffne : (("Subject:").toList : Str) ≠ [] := by decide
  have hc1 : '\n' ∉ ((("Status: RO").toList : Str)) := by decide
  have hc2 : '\n' ∉ (("From: ").toList ++ fromLineTail it extra) := nl_not_append (by decide) hn1
  have hc3 : '\n' ∉ (("Subject: ").toList ++ it.subject.getD []) := nl_not_append (by decide) hn2
  have hc4 : '\n' ∉ (("To: ").toList ++ it.sentto.getD []) := nl_not_append (by decide) hn3
  have hc5 : '\n' ∉ (("Cc: ").toList ++ it.cc.getD []) := nl_not_append (by decide) hn4
  have hc6 : '\n' ∉ (("Date: ").toList ++ it.sentDate.getD []) := nl_not_append (by decide) hn5
  have hc7 : '\n' ∉ (("Message-Id: ").toList ++ it.messageid.getD []) := nl_not_append (by decide) hn6
  have hc8 : '\n' ∉ (("X-libpst-forensic-sender: ").toList ++ (it.senderAddr.getD [])) := nl_not_append (by decide) hn7
  have hc9 : '\n' ∉ (("X-libpst-forensic-bcc: ").toList ++ it.bcc.getD []) := nl_not_append (by decide) hn8
  have hc10 : '\n' ∉ ((("MIME-Version: 1.0").toList : Str)) := by decide
  have hc11 : '\n' ∉ (ctLine1 it extra) := by
    unfold ctLine1
    split
    · exact nl_not_append (nl_not_append (by decide) hn9) (by decide)
    · decide
  have hc12 : '\n' ∉ ([ '\t' ] ++ ("boundary=\"").toList ++ bound ++ ("\"").toList) := nl_not_append (nl_not_append (by decide) hn10) (by decide)
  have hc13 : '\n' ∉ (([] : Str)) := by decide
  unfold countLinesCI tailSection
  rw [countAux_chunkC hff hffne hc1,
    countAux_chunkC hff hffne hc2,
    countAux_chunkC hff hffne hc3,
    countAux_chunkC hff hffne hc4,
    countAux_chunkC hff hffne hc5,
    countAux_chunkC hff hffne hc6,
    countAux_chunkC hff hffne hc7,
    countAux_chunkC hff hffne hc8,
    countAux_chunkC hff hffne hc9,
    countAux_chunkC hff hffne hc10,
    countAux_chunkC hff hffne hc11,
    countAux_chunkC hff hffne hc12,
    countAux_chunkC hff hffne hc13]
  rw [show ciStarts (("Subject:").toList) (((("Status: RO").toList : Str)) ++ [ '\n' ]) = false from rfl]
  rw [show ciStarts (("Subject:").toList) ((("From: ").toList ++ fromLineTail it extra) ++ [ '\n' ]) = false from rfl]
  rw [show ciStarts (("Subject:").toList) ((("Subject: ").toList ++ it.subject.getD []) ++ [ '\n' ]) = true from rfl]
  rw [show ciStarts (("Subject:").toList) ((("To: ").toList ++ it.sentto.getD []) ++ [ '\n' ]) = false from rfl]
  rw [show ciStarts (("Subject:").toList) ((("Cc: ").toList ++ it.cc.getD []) ++ [ '\n' ]) = false from rfl]
  rw [show ciStarts (("Subject:").toList) ((("Date: ").toList ++ it.sentDate.getD []) ++ [ '\n' ]) = false from rfl]
  rw [show ciStarts (("Subject:").toList) ((("Message-Id: ").toList ++ it.messageid.getD []) ++ [ '\n' ]) = false from rfl]
  rw [show ciStarts (("Subject:").toList) ((("X-libpst-forensic-sender: ").toList ++ (it.senderAddr.getD [])) ++ [ '\n' ]) = false from rfl]
  rw [show ciStarts (("Subject:").toList) ((("X-libpst-forensic-bcc: ").toList ++ it.bcc.getD []) ++ [ '\n' ]) = false from rfl]
  rw [show ciStarts (("Subject:").toList) (((("MIME-Version: 1.0").toList : Str)) ++ [ '\n' ]) = false from rfl]
  rw [show ciStarts (("Subject:").toList) (ctLine1 it extra ++ [ '\n' ]) = false from by
    unfold ctLine1
    split <;> rfl]
  rw [show ciStarts (("Subject:").toList) (([ '\t' ] ++ ("boundary=\"").toList ++ bound ++ ("\"").toList) ++ [ '\n' ]) = false from rfl]
  rw [show ciStarts (("Subject:").toList) ((([] : Str)) ++ [ '\n' ]) = false from rfl]
  rw [show countAux (("Subject:").toList) ([] : Str) true = 0 from rfl]
  simp


theorem countTail_to (it : EmailItem) (extra : Option Str) (bound : Str)
    (hn1 : '\n' ∉ fromLineTail it extra) (hn2 : '\n' ∉ it.subject.getD [])
    (hn3 : '\n' ∉ it.sentto.getD []) (hn4 : '\n' ∉ it.cc.getD [])
    (hn5 : '\n' ∉ it.sentDate.getD []) (hn6 : '\n' ∉ it.messageid.getD [])
    (hn7 : '\n' ∉ it.senderAddr.getD []) (hn8 : '\n' ∉ it.bcc.getD [])
    (hn9 : '\n' ∉ reportType it extra) (hn10 : '\n' ∉ bound) :
    countLinesCI (("To:").toList) (tailSection it extra bound) =
      (if (!flagOf it extra (("\nTo:").toList) && it.sentto.isSome) = true then 1 else 0) := by
  have hff : '\n' ∉ (("To:").toList : Str) := by decide
  have hffne : (("To:").toList : Str) ≠ [] := by decide
  have hc1 : '\n' ∉ ((("Status: RO").toList : Str)) := by decide
  have hc2 : '\n' ∉ (("From: ").toList ++ fromLineTail it extra) := nl_not_append (by decide) hn1
  have hc3 : '\n' ∉ (("Subject: ").toList ++ it.subject.getD []) := nl_not_append (by decide) hn2
  have hc4 : '\n' ∉ (("To: ").toList ++ it.sentto.getD []) := nl_not_append (by decide) hn3
  have hc5 : '\n' ∉ (("Cc: ").toList ++ it.cc.getD []) := nl_not_append (by decide) hn4
  have hc6 : '\n' ∉ (("Date: ").toList ++ it.sentDate.getD []) := nl_not_append (by decide) hn5
  have hc7 : '\n' ∉ (("Message-Id: ").toList ++ it.messageid.getD []) := nl_not_append (by decide) hn6
  have hc8 : '\n' ∉ (("X-libpst-forensic-sender: ").toList ++ (it.senderAddr.getD [])) := nl_not_append (by decide) hn7
  have hc9 : '\n' ∉ (("X-libpst-forensic-bcc: ").toList ++ it.bcc.getD []) := nl_not_append (by decide) hn8
  have hc10 : '\n' ∉ ((("MIME-Version: 1.0").toList : Str)) := by decide
  have hc11 : '\n' ∉ (ctLine1 it extra) := by
    unfold ctLine1
    split
    · exact nl_not_append (nl_not_append (by decide) hn9) (by decide)
    · decide
  have hc12 : '\n' ∉ ([ '\t' ] ++ ("boundary=\"").toList ++ bound ++ ("\"").toList) := nl_not_append (nl_not_append (by decide) hn10) (by decide)
  have hc13 : '\n' ∉ (([] : Str)) := by decide
  unfold countLinesCI tailSection
  rw [countAux_chunkC hff hffne hc1,
    countAux_chunkC hff hffne hc2,
    countAux_chunkC hff hffne hc3,
    countAux_chunkC hff hffne hc4,
    countAux_chunkC hff hffne hc5,
    countAux_chunkC hff hffne hc6,
    countAux_chunkC hff hffne hc7,
    countAux_chunkC hff hffne hc8,
    countAux_chunkC hff hffne hc9,
    countAux_chunkC hff hffne hc10,
    countAux_chunkC hff hffne hc11,
    countAux_chunkC hff hffne hc12,
    countAux_chunkC hff hffne hc13]
  rw [show ciStarts (("To:").toList) (((("Status: RO").toList : Str)) ++ [ '\n' ]) = false from rfl]
  rw [show ciStarts (("To:").toList) ((("From: ").toList ++ fromLineTail it extra) ++ [ '\n' ]) = false from rfl]
  rw [show ciStarts (("To:").toList) ((("Subject: ").toList ++ it.subject.getD []) ++ [ '\n' ]) = false from rfl]
  rw [show ciStarts (("To:").toList) ((("To: ").toList ++ it.sentto.getD []) ++ [ '\n' ]) = true from rfl]
  rw [show ciStarts (("To:").toList) ((("Cc: ").toList ++ it.cc.getD []) ++ [ '\n' ]) = false from rfl]
  rw [show ciStarts (("To:").toList) ((("Date: ").toList ++ it.sentDate.getD []) ++ [ '\n' ]) = false from rfl]
  rw [show ciStarts (("To:").toList) ((("Message-Id: ").toList ++ it.messageid.getD []) ++ [ '\n' ]) = false from rfl]
  rw [show ciStarts (("To:").toList) ((("X-libpst-forensic-sender: ").toList ++ (it.senderAddr.getD [])) ++ [ '\n' ]) = false from rfl]
  rw [show ciStarts (("To:").toList) ((("X-libpst-forensic-bcc: ").toList ++ it.bcc.getD []) ++ [ '\n' ]) = false from rfl]
  rw [show ciStarts (("To:").toList) (((("MIME-Version: 1.0").toList : Str)) ++ [ '\n' ]) = false from rfl]
  rw [show ciStarts (("To:").toList) (ctLine1 it extra ++ [ '\n' ]) = false from by
    unfold ctLine1
    split <;> rfl]
  rw [show ciStarts (("To:").toList) (([ '\t' ] ++ ("boundary=\"").toList ++ bound ++ ("\"").toList) ++ [ '\n' ]) = false from rfl]
  rw [show ciStarts (("To:").toList) ((([] : Str)) ++ [ '\n' ]) = false from rfl]
  rw [show countAux (("To:").toList) ([] : Str) true = 0 from rfl]
  simp


theorem countTail_cc (it : EmailItem) (extra : Option Str) (bound : Str)
    (hn1 : '\n' ∉ fromLineTail it extra) (hn2 : '\n' ∉ it.subject.getD [])
    (hn3 : '\n' ∉ it.sentto.getD []) (hn4 : '\n' ∉ it.cc.getD [])
    (hn5 : '\n' ∉ it.sentDate.getD []) (hn6 : '\n' ∉ it.messageid.getD [])
    (hn7 : '\n' ∉ it.senderAddr.getD []) (hn8 : '\n' ∉ it.bcc.getD [])
    (hn9 : '\n' ∉ reportType it extra) (hn10 : '\n' ∉ bound) :
    countLinesCI (("Cc:").toList) (tailSection it extra bound) =
      (if (!flagOf it extra (("\nCC:").toList) && it.cc.isSome) = true then 1 else 0) := by
  have hff : '\n' ∉ (("Cc:").toList : Str) := by decide
  have hffne : (("Cc:").toList : Str) ≠ [] := by decide
  have hc1 : '\n' ∉ ((("Status: RO").toList : Str)) := by decide
  have hc2 : '\n' ∉ (("From: ").toList ++ fromLineTail it extra) := nl_not_append (by decide) hn1
  have hc3 : '\n' ∉ (("Subject: ").toList ++ it.subject.getD []) := nl_not_append (by decide) hn2
  have hc4 : '\n' ∉ (("To: ").toList ++ it.sentto.getD []) := nl_not_append (by decide) hn3
  have hc5 : '\n' ∉ (("Cc: ").toList ++ it.cc.getD []) := nl_not_append (by decide) hn4
  have hc6 : '\n' ∉ (("Date: ").toList ++ it.sentDate.getD []) := nl_not_append (by decide) hn5
  have hc7 : '\n' ∉ (("Message-Id: ").toList ++ it.messageid.getD []) := nl_not_append (by decide) hn6
  have hc8 : '\n' ∉ (("X-libpst-forensic-sender: ").toList ++ (it.senderAddr.getD [])) := nl_not_append (by decide) hn7
  have hc9 : '\n' ∉ (("X-libpst-forensic-bcc: ").toList ++ it.bcc.getD []) := nl_not_append (by decide) hn8
  have hc10 : '\n' ∉ ((("MIME-Version: 1.0").toList : Str)) := by decide
  have hc11 : '\n' ∉ (ctLine1 it extra) := by
    unfold ctLine1
    split
    · exact nl_not_append (nl_not_append (by decide) hn9) (by decide)
    · decide
  have hc12 : '\n' ∉ ([ '\t' ] ++ ("boundary=\"").toList ++ bound ++ ("\"").toList) := nl_not_append (nl_not_append (by decide) hn10) (by decide)
  have hc13 : '\n' ∉ (([] : Str)) := by decide
  unfold countLinesCI tailSection
  rw [countAux_chunkC hff hffne hc1,
    countAux_chunkC hff hffne hc2,
    countAux_chunkC hff hffne hc3,
    countAux_chunkC hff hffne hc4,
    countAux_chunkC hff hffne hc5,
    countAux_chunkC hff hffne hc6,
    countAux_chunkC hff hffne hc7,
    countAux_chunkC hff hffne hc8,
    countAux_chunkC hff hffne hc9,
    countAux_chunkC hff hffne hc10,
    countAux_chunkC hff hffne hc11,
    countAux_chunkC hff hffne hc12,
    countAux_chunkC hff hffne hc13]
  rw [show ciStarts (("Cc:").toList) (((("Status: RO").toList : Str)) ++ [ '\n' ]) = false from rfl]
  rw [show ciStarts (("Cc:").toList) ((("From: ").toList ++ fromLineTail it extra) ++ [ '\n' ]) = false from rfl]
  rw [show ciStarts (("Cc:").toList) ((("Subject: ").toList ++ it.subject.getD []) ++ [ '\n' ]) = false from rfl]
  rw [show ciStarts (("Cc:").toList) ((("To: ").toList ++ it.sentto.getD []) ++ [ '\n' ]) = false from rfl]
  rw [show ciStarts (("Cc:").toList) ((("Cc: ").toList ++ it.cc.getD []) ++ [ '\n' ]) = true from rfl]
  rw [show ciStarts (("Cc:").toList) ((("Date: ").toList ++ it.sentDate.getD []) ++ [ '\n' ]) = false from rfl]
  rw [show ciStarts (("Cc:").toList) ((("Message-Id: ").toList ++ it.messageid.getD []) ++ [ '\n' ]) = false from rfl]
  rw [show ciStarts (("Cc:").toList) ((("X-libpst-forensic-sender: ").toList ++ (it.senderAddr.getD [])) ++ [ '\n' ]) = false from rfl]
  rw [show ciStarts (("Cc:").toList) ((("X-libpst-forensic-bcc: ").toList ++ it.bcc.getD []) ++ [ '\n' ]) = false from rfl]
  rw [show ciStarts (("Cc:").toList) (((("MIME-Version: 1.0").toList : Str)) ++ [ '\n' ]) = false from rfl]
  rw [show ciStarts (("Cc:").toList) (ctLine1 it extra ++ [ '\n' ]) = false from by
    unfold ctLine1
    split <;> rfl]
  rw [show ciStarts (("Cc:").toList) (([ '\t' ] ++ ("boundary=\"").toList ++ bound ++ ("\"").toList) ++ [ '\n' ]) = false from rfl]
  rw [show ciStarts (("Cc:").toList) ((([] : Str)) ++ [ '\n' ]) = false from rfl]
  rw [show countAux (("Cc:").toList) ([] : Str) true = 0 from rfl]
  simp


theorem countTail_date (it : EmailItem) (extra : Option Str) (bound : Str)
    (hn1 : '\n' ∉ fromLineTail it extra) (hn2 : '\n' ∉ it.subject.getD [])
    (hn3 : '\n' ∉ it.sentto.getD []) (hn4 : '\n' ∉ it.cc.getD [])
    (hn5 : '\n' ∉ it.sentDate.getD []) (hn6 : '\n' ∉ it.messageid.getD [])
    (hn7 : '\n' ∉ it.senderAddr.getD []) (hn8 : '\n' ∉ it.bcc.getD [])
    (hn9 : '\n' ∉ reportType it extra) (hn10 : '\n' ∉ bound) :
    countLinesCI (("Date:").toList) (tailSection it extra bound) =
      (if (!flagOf it extra (("\nDate:").toList) && it.sentDate.isSome) = true then 1 else 0) := by
  have hff : '\n' ∉ (("Date:").toList : Str) := by decide
  have hffne : (("Date:").toList : Str) ≠ [] := by decide
  have hc1 : '\n' ∉ ((("Status: RO").toList : Str)) := by decide
  have hc2 : '\n' ∉ (("From: ").toList ++ fromLineTail it extra) := nl_not_append (by decide) hn1
  have hc3 : '\n' ∉ (("Subject: ").toList ++ it.subject.getD []) := nl_not_append (by decide) hn2
  have hc4 : '\n' ∉ (("To: ").toList ++ it.sentto.getD []) := nl_not_append (by decide) hn3
  have hc5 : '\n' ∉ (("Cc: ").toList ++ it.cc.getD []) := nl_not_append (by decide) hn4
  have hc6 : '\n' ∉ (("Date: ").toList ++ it.sentDate.getD []) := nl_not_append (by decide) hn5
  have hc7 : '\n' ∉ (("Message-Id: ").toList ++ it.messageid.getD []) := nl_not_append (by decide) hn6
  have hc8 : '\n' ∉ (("X-libpst-forensic-sender: ").toList ++ (it.senderAddr.getD [])) := nl_not_append (by decide) hn7
  have hc9 : '\n' ∉ (("X-libpst-forensic-bcc: ").toList ++ it.bcc.getD []) := nl_not_append (by decide) hn8
  have hc10 : '\n' ∉ ((("MIME-Version: 1.0").toList : Str)) := by decide
  have hc11 : '\n' ∉ (ctLine1 it extra) := by
    unfold ctLine1
    split
    · exact nl_not_append (nl_not_append (by decide) hn9) (by decide)
    · decide
  have hc12 : '\n' ∉ ([ '\t' ] ++ ("boundary=\"").toList ++ bound ++ ("\"").toList) := nl_not_append (nl_not_append (by decide) hn10) (by decide)
  have hc13 : '\n' ∉ (([] : Str)) := by decide
  unfold countLinesCI tailSection
  rw [countAux_chunkC hff hffne hc1,
    countAux_chunkC hff hffne hc2,
    countAux_chunkC hff hffne hc3,
    countAux_chunkC hff hffne hc4,
    countAux_chunkC hff hffne hc5,
    countAux_chunkC hff hffne hc6,
    countAux_chunkC hff hffne hc7,
    countAux_chunkC hff hffne hc8,
    countAux_chunkC hff hffne hc9,
    countAux_chunkC hff hffne hc10,
    countAux_chunkC hff hffne hc11,
    countAux_chunkC hff hffne hc12,
    countAux_chunkC hff hffne hc13]
  rw [show ciStarts (("Date:").toList) (((("Status: RO").toList : Str)) ++ [ '\n' ]) = false from rfl]
  rw [show ciStarts (("Date:").toList) ((("From: ").toList ++ fromLineTail it extra) ++ [ '\n' ]) = false from rfl]
  rw [show ciStarts (("Date:").toList) ((("Subject: ").toList ++ it.subject.getD []) ++ [ '\n' ]) = false from rfl]
  rw [show ciStarts (("Date:").toList) ((("To: ").toList ++ it.sentto.getD []) ++ [ '\n' ]) = false from rfl]
  rw [show ciStarts (("Date:").toList) ((("Cc: ").toList ++ it.cc.getD []) ++ [ '\n' ]) = false from rfl]
  rw [show ciStarts (("Date:").toList) ((("Date: ").toList ++ it.sentDate.getD []) ++ [ '\n' ]) = true from rfl]
  rw [show ciStarts (("Date:").toList) ((("Message-Id: ").toList ++ it.messageid.getD []) ++ [ '\n' ]) = false from rfl]
  rw [show ciStarts (("Date:").toList) ((("X-libpst-forensic-sender: ").toList ++ (it.senderAddr.getD [])) ++ [ '\n' ]) = false from rfl]
  rw [show ciStarts (("Date:").toList) ((("X-libpst-forensic-bcc: ").toList ++ it.bcc.getD []) ++ [ '\n' ]) = false from rfl]
  rw [show ciStarts (("Date:").toList) (((("MIME-Version: 1.0").toList : Str)) ++ [ '\n' ]) = false from rfl]
  rw [show ciStarts (("Date:").toList) (ctLine1 it extra ++ [ '\n' ]) = false from by
    unfold ctLine1
    split <;> rfl]
  rw [show ciStarts (("Date:").toList) (([ '\t' ] ++ ("boundary=\"").toList ++ bound ++ ("\"").toList) ++ [ '\n' ]) = false from rfl]
  rw [show ciStarts (("Date:").toList) ((([] : Str)) ++ [ '\n' ]) = false from rfl]
  rw [show countAux (("Date:").toList) ([] : Str) true = 0 from rfl]
  simp


theorem countTail_msgid (it : EmailItem) (extra : Option Str) (bound : Str)
    (hn1 : '\n' ∉ fromLineTail it extra) (hn2 : '\n' ∉ it.subject.getD [])
    (hn3 : '\n' ∉ it.sentto.getD []) (hn4 : '\n' ∉ it.cc.getD [])
    (hn5 : '\n' ∉ it.sentDate.getD []) (hn6 : '\n' ∉ it.messageid.getD [])
    (hn7 : '\n' ∉ it.senderAddr.getD []) (hn8 : '\n' ∉ it.bcc.getD [])
    (hn9 : '\n' ∉ reportType it extra) (hn10 : '\n' ∉ bound) :
    countLinesCI (("Message-Id:").toList) (tailSection it extra bound) =
      (if (!flagOf it extra (("\nMessage-Id:").toList) && it.messageid.isSome) = true then 1 else 0) := by
  have hff : '\n' ∉ (("Message-Id:").toList : Str) := by decide
  have hffne : (("Message-Id:").toList : Str) ≠ [] := by decide
  have hc1 : '\n' ∉ ((("Status: RO").toList : Str)) := by decide
  have hc2 : '\n' ∉ (("From: ").toList ++ fromLineTail it extra) := nl_not_append (by decide) hn1
  have hc3 : '\n' ∉ (("Subject: ").toList ++ it.subject.getD []) := nl_not_append (by decide) hn2
  have hc4 : '\n' ∉ (("To: ").toList ++ it.sentto.getD []) := nl_not_append (by decide) hn3
  have hc5 : '\n' ∉ (("Cc: ").toList ++ it.cc.getD []) := nl_not_append (by decide) hn4
  have hc6 : '\n' ∉ (("Date: ").toList ++ it.sentDate.getD []) := nl_not_append (by decide) hn5
  have hc7 : '\n' ∉ (("Message-Id: ").toList ++ it.messageid.getD []) := nl_not_append (by decide) hn6
  have hc8 : '\n' ∉ (("X-libpst-forensic-sender: ").toList ++ (it.senderAddr.getD [])) := nl_not_append (by decide) hn7
  have hc9 : '\n' ∉ (("X-libpst-forensic-bcc: ").toList ++ it.bcc.getD []) := nl_not_append (by decide) hn8
  have hc10 : '\n' ∉ ((("MIME-Version: 1.0").toList : Str)) := by decide
  have hc11 : '\n' ∉ (ctLine1 it extra) := by
    unfold ctLine1
    split
    · exact nl_not_append (nl_not_append (by decide) hn9) (by decide)
    · decide
  have hc12 : '\n' ∉ ([ '\t' ] ++ ("boundary=\"").toList ++ bound ++ ("\"").toList) := nl_not_append (nl_not_append (by decide) hn10) (by decide)
  have hc13 : '\n' ∉ (([] : Str)) := by decide
  unfold countLinesCI tailSection
  rw [countAux_chunkC hff hffne hc1,
    countAux_chunkC hff hffne hc2,
    countAux_chunkC hff hffne hc3,
    countAux_chunkC hff hffne hc4,
    countAux_chunkC hff hffne hc5,
    countAux_chunkC hff hffne hc6,
    countAux_chunkC hff hffne hc7,
    countAux_chunkC hff hffne hc8,
    countAux_chunkC hff hffne hc9,
    countAux_chunkC hff hffne hc10,
    countAux_chunkC hff hffne hc11,
    countAux_chunkC hff hffne hc12,
    countAux_chunkC hff hffne hc13]
  rw [show ciStarts (("Message-Id:").toList) (((("Status: RO").toList : Str)) ++ [ '\n' ]) = false from rfl]
  rw [show ciStarts (("Message-Id:").toList) ((("From: ").toList ++ fromLineTail it extra) ++ [ '\n' ]) = false from rfl]
  rw [show ciStarts (("Message-Id:").toList) ((("Subject: ").toList ++ it.subject.getD []) ++ [ '\n' ]) = false from rfl]
  rw [show ciStarts (("Message-Id:").toList) ((("To: ").toList ++ it.sentto.getD []) ++ [ '\n' ]) = false from rfl]
  rw [show ciStarts (("Message-Id:").toList) ((("Cc: ").toList ++ it.cc.getD []) ++ [ '\n' ]) = false from rfl]
  rw [show ciStarts (("Message-Id:").toList) ((("Date: ").toList ++ it.sentDate.getD []) ++ [ '\n' ]) = false from rfl]
  rw [show ciStarts (("Message-Id:").toList) ((("Message-Id: ").toList ++ it.messageid.getD []) ++ [ '\n' ]) = true from rfl]
  rw [show ciStarts (("Message-Id:").toList) ((("X-libpst-forensic-sender: ").toList ++ (it.senderAddr.getD [])) ++ [ '\n' ]) = false from rfl]
  rw [show ciStarts (("Message-Id:").toList) ((("X-libpst-forensic-bcc: ").toList ++ it.bcc.getD []) ++ [ '\n' ]) = false from rfl]
  rw [show ciStarts (("Message-Id:").toList) (((("MIME-Version: 1.0").toList : Str)) ++ [ '\n' ]) = false from rfl]
  rw [show ciStarts (("Message-Id:").toList) (ctLine1 it extra ++ [ '\n' ]) = false from by
    unfold ctLine1
    split <;> rfl]
  rw [show ciStarts (("Message-Id:").toList) (([ '\t' ] ++ ("boundary=\"").toList ++ bound ++ ("\"").toList) ++ [ '\n' ]) = false from rfl]
  rw [show ciStarts (("Message-Id:").toList) ((([] : Str)) ++ [ '\n' ]) = false from rfl]
  rw [show countAux (("Message-Id:").toList) ([] : Str) true = 0 from rfl]
  simp

/-- The C1 counterexample item: a recovered header block that passes
`valid_headers` (it starts with `Date: `) and contains a `Subject:` line that
the `header_has_field` scan misses, because the line `S` just before it makes
the scan abandon a partial match and skip the true start. -/
def c1Item : EmailItem :=
  { header := some (("Date: x\nS\nSubject: hi\n").toList),
    subject := some (("syn").toList), senderName := none, senderAddr := none,
    sentto := none, cc := none, bcc := none, sentDate := none,
    messageid := none, isRead := false, isReport := false }

/-- C1 counterexample: the claim fails on the code.  For `c1Item` the printed
recovered block contains exactly one `Subject:` line, yet the whole header
section contains two — the block's own line plus a synthesized one — so
Subject does not appear exactly once, and a message whose raw header block
already contains a `Subject:` line does get a second, synthesized Subject
line. -/
theorem c1_counterexample :
    countLinesCI (("Subject:").toList) (printedBlock c1Item none) = 1 ∧
    countLinesCI (("Subject:").toList)
        (write_normal_email_headers c1Item none (("B").toList)) = 2 ∧
    ¬ countLinesCI (("Subject:").toList)
        (write_normal_email_headers c1Item none (("B").toList)) = 1 := by
  exact ⟨by decide, by decide, by decide⟩

/-- C1 (amended): in every document produced by `write_normal_email`, the
canonical header lines are exactly those of the printed recovered block plus
the synthesized ones, and a field is synthesized exactly when the code's
header scan did not flag it as present — From and Subject unconditionally,
To/Cc/Date/Message-Id only when the item supplies a value.  The scan can miss
a field genuinely present in the block (see the counterexample), in which
case the output carries both the block's line and a synthesized one; and a
field neither flagged nor supplied by the item appears zero times. -/
theorem c1_canonical_header_counts (it : EmailItem) (extra : Option Str)
    (bound : Str)
    (hn1 : '\n' ∉ fromLineTail it extra) (hn2 : '\n' ∉ it.subject.getD [])
    (hn3 : '\n' ∉ it.sentto.getD []) (hn4 : '\n' ∉ it.cc.getD [])
    (hn5 : '\n' ∉ it.sentDate.getD []) (hn6 : '\n' ∉ it.messageid.getD [])
    (hn7 : '\n' ∉ it.senderAddr.getD []) (hn8 : '\n' ∉ it.bcc.getD [])
    (hn9 : '\n' ∉ reportType it extra) (hn10 : '\n' ∉ bound) :
    (countLinesCI (("From:").toList) (write_normal_email_headers it extra bound) =
      countLinesCI (("From:").toList) (printedBlock it extra) +
        (if flagOf it extra (("\nFrom:").toList) = false then 1 else 0)) ∧
    (countLinesCI (("Subject:").toList) (write_normal_email_headers it extra bound) =
      countLinesCI (("Subject:").toList) (printedBlock it extra) +
        (if flagOf it extra (("\nSubject:").toList) = false then 1 else 0)) ∧
    (countLinesCI (("To:").toList) (write_normal_email_headers it extra bound) =
      countLinesCI (("To:").toList) (printedBlock it extra) +
        (if flagOf it extra (("\nTo:").toList) = false ∧ it.sentto.isSome = true
         then 1 else 0)) ∧
    (countLinesCI (("Cc:").toList) (write_normal_email_headers it extra bound) =
      countLinesCI (("Cc:").toList) (printedBlock it extra) +
        (if flagOf it extra (("\nCC:").toList) = false ∧ it.cc.isSome = true
         then 1 else 0)) ∧
    (countLinesCI (("Date:").toList) (write_normal_email_headers it extra bound) =
      countLinesCI (("Date:").toList) (printedBlock it extra) +
        (if flagOf it extra (("\nDate:").toList) = false ∧ it.sentDate.isSome = true
         then 1 else 0)) ∧
    (countLinesCI (("Message-Id:").toList) (write_normal_email_headers it extra bound) =
      countLinesCI (("Message-Id:").toList) (printedBlock it extra) +
        (if flagOf it extra (("\nMessage-Id:").toList) = false ∧
            it.messageid.isSome = true then 1 else 0)) := by
  refine ⟨?_, ?_, ?_, ?_, ?_, ?_⟩
  · rw [count_headers_split (by decide) (by decide) it extra bound]
    rw [countTail_from it extra bound hn1 hn2 hn3 hn4 hn5 hn6 hn7 hn8 hn9 hn10]
    cases hfl : flagOf it extra (("\nFrom:").toList) <;> simp [hfl]
  · rw [count_headers_split (by decide) (by decide) it extra bound]
    rw [countTail_subject it extra bound hn1 hn2 hn3 hn4 hn5 hn6 hn7 hn8 hn9 hn10]
    cases hfl : flagOf it extra (("\nSubject:").toList) <;> simp [hfl]
  · rw [count_headers_split (by decide) (by decide) it extra bound]
    rw [countTail_to it extra bound hn1 hn2 hn3 hn4 hn5 hn6 hn7 hn8 hn9 hn10]
    cases hfl : flagOf it extra (("\nTo:").toList) <;>
      cases hs : it.sentto.isSome <;> simp [hfl, hs]
  · rw [count_headers_split (by decide) (by decide) it extra bound]
    rw [countTail_cc it extra bound hn1 hn2 hn3 hn4 hn5 hn6 hn7 hn8 hn9 hn10]
    cases hfl : flagOf it extra (("\nCC:").toList) <;>
      cases hs : it.cc.isSome <;> simp [hfl, hs]
  · rw [count_headers_split (by decide) (by decide) it extra bound]
    rw [countTail_date it extra bound hn1 hn2 hn3 hn4 hn5 hn6 hn7 hn8 hn9 hn10]
    cases hfl : flagOf it extra (("\nDate:").toList) <;>
      cases hs : it.sentDate.isSome <;> simp [hfl, hs]
  · rw [count_headers_split (by decide) (by decide) it extra bound]
    rw [countTail_msgid it extra bound hn1 hn2 hn3 hn4 hn5 hn6 hn7 hn8 hn9 hn10]
    cases hfl : flagOf it extra (("\nMessage-Id:").toList) <;>
      cases hs : it.messageid.isSome <;> simp [hfl, hs]

/-- A well-formed item for the C1 witness. -/
def c1WItem : EmailItem :=
  { header := some (("Subject: old\n").toList),
    subject := some (("new").toList), senderName := none,
    senderAddr := some (("a@b").toList), sentto := some (("t@u").toList),
    cc := none, bcc := none, sentDate := none, messageid := none,
    isRead := true, isReport := false }

/-- Witness for `c1_canonical_header_counts` at a concrete item whose block
has a Subject line the scan does see: no second Subject line is written. -/
theorem c1_canonical_header_counts_witness :
    ('\n' ∉ fromLineTail c1WItem none ∧
      '\n' ∉ reportType c1WItem none) ∧
    countLinesCI (("Subject:").toList)
        (write_normal_email_headers c1WItem none (("B").toList)) =
      countLinesCI (("Subject:").toList) (printedBlock c1WItem none) +
        (if flagOf c1WItem none (("\nSubject:").toList) = false then 1 else 0) :=
  ⟨⟨by decide, by decide⟩,
   (c1_canonical_header_counts c1WItem none (("B").toList) (by decide)
     (by decide) (by decide) (by decide) (by decide) (by decide) (by decide)
     (by decide) (by decide) (by decide)).2.1⟩
